import Mathlib

/-!
# Verification of the voice-task-bot reminder core

A shallow embedding, in Lean 4, of the reminder core of the `voice-task-bot`
backend: the fixed-offset Moscow time utilities, the Russian reminder-command
parser, the task/reminder store operations, the webhook dedupe flow and the
three cron-tick variants found in the sources, together with proofs about
them.

Conventions:
* JavaScript `Date` values are modelled as milliseconds since the Unix epoch
  (`Int`), exactly the value returned by `Date.prototype.getTime`.
* `Int` division `/` and remainder `%` in this development have Euclidean
  semantics, which coincide with floor-division semantics for the positive
  divisors used throughout; this matches ECMAScript's `Day(t)`,
  `HourFromTime(t)`, ... operations, which are defined with floor division
  and floor modulo.
* Strings are processed as `List Char` (the code points of the JS string).
-/

namespace VTB

/-! ## Calendar arithmetic (model of the ECMAScript Date primitives)

The backend builds UTC instants with `Date.UTC(year, month - 1, day,
hour - 3, minute, 0, 0)` and decomposes instants with `getUTCFullYear` /
`getUTCMonth` / `getUTCDate` (and, for the Moscow wall clock, with
`Intl.DateTimeFormat` in the `Europe/Moscow` zone, which has been a constant
UTC+3 zone without DST since 2014-10-26; the model uses that constant
offset, as does the repository's own `toUtcFromMoscowDateTime`).
ECMAScript prescribes the proleptic Gregorian calendar; `daysFromCivil` and
`civilFromDays` below are the standard closed forms for the
civil-date/day-number bijection it defines. -/

/-- Proleptic Gregorian leap-year test (ECMAScript `DaysInYear`). -/
def isLeap (y : Int) : Bool :=
  y % 4 == 0 && (y % 100 != 0 || y % 400 == 0)

/-- Number of days in month `m` (1-12) of year `y` (ECMAScript `DaysInMonth`). -/
def daysInMonth (y m : Int) : Int :=
  if m = 2 then (if isLeap y then 29 else 28)
  else if m = 4 ∨ m = 6 ∨ m = 9 ∨ m = 11 then 30
  else 31

/-- Day number (days since 1970-01-01) of the civil date `y-m-d`,
for `1 ≤ m ≤ 12` and a valid day-of-month `d`.  Closed form for the
proleptic Gregorian calendar (ECMAScript `MakeDay`); `/` is floor division
here since all divisors are positive. -/
def daysFromCivil (y m d : Int) : Int :=
  let y' := if m ≤ 2 then y - 1 else y
  let era := y' / 400
  let yoe := y' - era * 400
  let mp := if 2 < m then m - 3 else m + 9
  let doy := (153 * mp + 2) / 5 + d - 1
  let doe := yoe * 365 + yoe / 4 - yoe / 100 + doy
  era * 146097 + doe - 719468

/-- Civil date `(y, m, d)` of a day number (days since 1970-01-01): inverse
of `daysFromCivil` (ECMAScript `YearFromTime`/`MonthFromTime`/`DateFromTime`). -/
def civilFromDays (z : Int) : Int × Int × Int :=
  let z' := z + 719468
  let era := z' / 146097
  let doe := z' - era * 146097
  let yoe := (doe - doe / 1460 + doe / 36524 - doe / 146096) / 365
  let doy := doe - (365 * yoe + yoe / 4 - yoe / 100)
  let mp := (5 * doy + 2) / 153
  let d := doy - (153 * mp + 2) / 5 + 1
  let m := if mp < 10 then mp + 3 else mp - 9
  (yoe + era * 400 + (if m ≤ 2 then 1 else 0), m, d)

/-- `Date.UTC(y, monthIndex, d, h, mi, 0, 0)` in milliseconds, for a valid
`(yr, monthIndex + 1, d)` civil date and arbitrary (possibly negative or
overflowing) hour and minute, which ECMAScript folds into the day by plain
arithmetic (`MakeTime`/`MakeDate`).  Per the `Date.UTC` algorithm, an
integer year argument between 0 and 99 denotes `1900 + year`.  The final
`TimeClip` is the identity on every instant within ±8.64e15 ms of the
epoch (beyond it `Date.UTC` returns NaN); every instant produced in this
development lies far inside that range, so the clip is not modelled. -/
def jsDateUTC (y monthIndex d h mi : Int) : Int :=
  let yr := if 0 ≤ y ∧ y ≤ 99 then 1900 + y else y
  daysFromCivil yr (monthIndex + 1) d * 86400000 + h * 3600000 + mi * 60000

/-! ## Moscow time utilities

Embeds the time helpers of `reminderParser.ts` (= `part_022`):
`MOSCOW_OFFSET_HOURS = 3`, `getMoscowNowParts`, `toUtcFromMoscowDateTime`,
`addDaysMoscow`, `defaultTodayTime`. -/

/-- `MOSCOW_OFFSET_HOURS` of `reminderParser.ts`. -/
def MOSCOW_OFFSET_HOURS : Int := 3

/-- The civil parts produced by `getMoscowNowParts`. -/
structure MoscowParts where
  year : Int
  month : Int
  day : Int
  hour : Int
  minute : Int
deriving DecidableEq, Repr

/-- The constant-offset decomposition of an instant into UTC+3 wall-clock
parts.  This is the restriction of the source's
`Intl.DateTimeFormat({timeZone: "Europe/Moscow"})` decomposition to
instants at or after the 2014-10-26 transition, where Europe/Moscow is
the fixed offset UTC+3 with no DST (the repository's own inverse
`toUtcFromMoscowDateTime` hard-codes this same offset for all inputs).
The instant-dependent model of the formatter, covering the earlier UTC+4
era as well, is `getMoscowNowPartsTz` below;
`getMoscowNowPartsTz_modern` proves the two agree on the post-2014
domain. -/
def getMoscowNowParts (nowUtc : Int) : MoscowParts :=
  let msk := nowUtc + MOSCOW_OFFSET_HOURS * 3600000
  let ymd := civilFromDays (msk / 86400000)
  { year := ymd.1, month := ymd.2.1, day := ymd.2.2,
    hour := (msk / 3600000) % 24, minute := (msk / 60000) % 60 }

/-- Epoch ms of the IANA tz transition `2011-03-27 02:00 +03 → 03:00 +04`
(= 2011-03-26 23:00 UTC), when Europe/Moscow moved to permanent UTC+4. -/
def MSK_UTC4_START : Int := 1301180400000

/-- Epoch ms of the IANA tz transition `2014-10-26 02:00 +04 → 01:00 +03`
(= 2014-10-25 22:00 UTC), when Europe/Moscow moved to permanent UTC+3. -/
def MSK_UTC4_END : Int := 1414274400000

/-- The UTC offset (in ms) that `Intl.DateTimeFormat({timeZone:
"Europe/Moscow"})` applies to an instant, per the IANA tz database:
permanent UTC+4 between the 2011-03-27 and 2014-10-26 transitions,
permanent UTC+3 with no DST afterwards.  Before the 2011 transition the
zone's history alternates (DST +3/+4 during 1981-2010, and older eras);
this development models that span only by the standard offset +3 — exact
for winter instants and for the whole DST-free 1930-1981 span — and no
theorem below evaluates the formatter at a pre-2011 instant outside that
exact region. -/
def moscowUtcOffsetMs (t : Int) : Int :=
  if t < MSK_UTC4_START then 3 * 3600000
  else if t < MSK_UTC4_END then 4 * 3600000
  else 3 * 3600000

/-- `getMoscowNowParts(nowUtc)` of `reminderParser.ts`, with the source's
`Intl.DateTimeFormat({timeZone: "Europe/Moscow"})` modelled
instant-dependently via `moscowUtcOffsetMs`. -/
def getMoscowNowPartsTz (nowUtc : Int) : MoscowParts :=
  let msk := nowUtc + moscowUtcOffsetMs nowUtc
  let ymd := civilFromDays (msk / 86400000)
  { year := ymd.1, month := ymd.2.1, day := ymd.2.2,
    hour := (msk / 3600000) % 24, minute := (msk / 60000) % 60 }

/-- `toUtcFromMoscowDateTime(year, month, day, hour, minute)` =
`new Date(Date.UTC(year, month - 1, day, hour - MOSCOW_OFFSET_HOURS, minute, 0, 0))`. -/
def toUtcFromMoscowDateTime (year month day hour minute : Int) : Int :=
  jsDateUTC year (month - 1) day (hour - MOSCOW_OFFSET_HOURS) minute

/-- `baseUtc.setUTCDate(baseUtc.getUTCDate() + daysToAdd)` on a `Date`
holding instant `t` (ECMAScript `MakeDate(MakeDay(y, m, newDate), time)`). -/
def jsSetUTCDateAdd (t daysToAdd : Int) : Int :=
  let ymd := civilFromDays (t / 86400000)
  let newDays := daysFromCivil ymd.1 ymd.2.1 1 + (ymd.2.2 + daysToAdd - 1)
  newDays * 86400000 + t % 86400000

/-- `addDaysMoscow(year, month, day, daysToAdd)` of `reminderParser.ts`:
shift a Moscow civil date by whole days via noon-anchored UTC arithmetic. -/
def addDaysMoscow (year month day daysToAdd : Int) : Int × Int × Int :=
  let baseUtc := toUtcFromMoscowDateTime year month day 12 0
  let shifted := jsSetUTCDateAdd baseUtc daysToAdd
  let moscow := shifted + MOSCOW_OFFSET_HOURS * 60 * 60 * 1000
  civilFromDays (moscow / 86400000)

/-- `defaultTodayTime(nowUtc)` of `part_022`: the due time used for a
"сегодня"-command with no explicit HH:MM. -/
def defaultTodayTime (nowUtc : Int) : Int × Int :=
  let nowMsk := nowUtc + MOSCOW_OFFSET_HOURS * 60 * 60 * 1000
  let hour := (nowMsk / 3600000) % 24
  if hour < 10 then (10, 0)
  else
    let nextHour := hour + 1
    if nextHour > 23 then (23, 59) else (nextHour, 10)

/-! ## The reminder-command parser (`part_022` variant, with typed failures)

JS strings are processed as `List Char`.  The anchored regular expressions
of the source are mirrored by explicit matching functions; `\s` is the JS
whitespace class, `\d` is ASCII `0-9`, and `/i` is mirrored by simple case
folding of ASCII and Cyrillic letters (the only cased characters in the
patterns). -/

/-- The JS regex/`trim` whitespace class (`\s`). -/
def isJsWs (c : Char) : Bool :=
  c == ' ' || c == '\t' || c == '\n' || c == '\x0d' || c == '\x0b' || c == '\x0c' ||
  c == '\u00A0' || c == '\u1680' || ('\u2000' ≤ c && c ≤ '\u200A') ||
  c == '\u2028' || c == '\u2029' || c == '\u202F' || c == '\u205F' || c == '\uFEFF' ||
  c == '\u3000'

/-- Simple case folding for ASCII and Cyrillic letters (JS `/i`). -/
def ruLower (c : Char) : Char :=
  if 'A' ≤ c && c ≤ 'Z' then Char.ofNat (c.toNat + 32)
  else if 'А' ≤ c && c ≤ 'Я' then Char.ofNat (c.toNat + 32)
  else if c = 'Ё' then 'ё'
  else c

/-- Strip leading and trailing JS whitespace (`String.prototype.trim`). -/
def trimEnds (l : List Char) : List Char :=
  ((l.dropWhile (fun c => isJsWs c)).reverse.dropWhile (fun c => isJsWs c)).reverse

/-- Collapse every maximal whitespace run to a single space
(`replace(/\s+/g, " ")`). -/
def collapseWs : List Char → List Char
  | [] => []
  | [c] => if isJsWs c then [' '] else [c]
  | c :: c' :: rest =>
      if isJsWs c && isJsWs c' then collapseWs (c' :: rest)
      else (if isJsWs c then ' ' else c) :: collapseWs (c' :: rest)

/-- `normalizeInput(text) = text.trim().replace(/\s+/g, " ")`. -/
def normalizeInput (l : List Char) : List Char :=
  collapseWs (trimEnds l)

/-- Case-insensitive literal match: consume `pat` (given lowercase) from the
front of the input, returning the rest. -/
def matchCiLit : List Char → List Char → Option (List Char)
  | [], s => some s
  | _ :: _, [] => none
  | p :: ps, c :: cs => if ruLower c == ruLower p then matchCiLit ps cs else none

/-- Consume one-or-more whitespace (`\s+`, greedy). -/
def takeWs1 : List Char → Option (List Char)
  | c :: cs => if isJsWs c then some (cs.dropWhile (fun c' => isJsWs c')) else none
  | [] => none

/-- Consume one or two ASCII digits (`\d\x7b1,2\x7d` before a fixed
delimiter, where greedy matching without backtracking is equivalent). -/
def takeDigits2 : List Char → Option (List Char × List Char)
  | c1 :: rest =>
      if c1.isDigit then
        match rest with
        | c2 :: rest2 => if c2.isDigit then some ([c1, c2], rest2) else some ([c1], rest)
        | [] => some ([c1], [])
      else none
  | [] => none

/-- Consume exactly two ASCII digits (`\d\x7b2\x7d`). -/
def takeDigits2Exact : List Char → Option (List Char × List Char)
  | c1 :: c2 :: rest => if c1.isDigit && c2.isDigit then some ([c1, c2], rest) else none
  | _ => none

/-- `stripCommandPrefix(value) = value.replace(/^напомни\s+/i, "").trim()`
(the leading command word with at least one following whitespace). -/
def stripCommandWord (l : List Char) : List Char :=
  match matchCiLit ("напомни".toList) l with
  | some (c :: cs) =>
      if isJsWs c then trimEnds (cs.dropWhile (fun c' => isJsWs c')) else trimEnds l
  | _ => trimEnds l

/-- `cleanTaskText(value) = value.replace(/\s+/g, " ").trim()`. -/
def cleanTaskText (l : List Char) : List Char :=
  trimEnds (collapseWs l)

/-- Digit string to number (`Number(...)` on an all-digit string). -/
def digitsToInt (l : List Char) : Int :=
  l.foldl (fun a c => a * 10 + ((c.toNat : Int) - 48)) 0

/-- `parseTime(hourRaw, minuteRaw)` of `part_022`: range-check the matched
time digits (the `Number.isInteger` test always passes on digit captures). -/
def parseTime (hourRaw minuteRaw : List Char) : Option (Int × Int) :=
  let hour := digitsToInt hourRaw
  let minute := digitsToInt minuteRaw
  if hour < 0 || hour > 23 || minute < 0 || minute > 59 then none
  else some (hour, minute)

/-- `^завтра\s+в\s+(\d\x7b1,2\x7d):(\d\x7b2\x7d)\s+(.+)$` (case-insensitive,
anchored; the input contains no line terminators after normalization, so
`.` matches every remaining character). -/
def tomorrowWithTime (l : List Char) : Option (List Char × List Char × List Char) :=
  (matchCiLit ("завтра".toList) l).bind fun r1 =>
  (takeWs1 r1).bind fun r2 =>
  (matchCiLit ("в".toList) r2).bind fun r3 =>
  (takeWs1 r3).bind fun r4 =>
  (takeDigits2 r4).bind fun hr =>
  match hr.2 with
  | ':' :: r6 =>
      (takeDigits2Exact r6).bind fun mr =>
      (takeWs1 mr.2).bind fun r8 =>
      if r8.isEmpty then none else some (hr.1, mr.1, r8)
  | _ => none

/-- `^сегодня\s+в\s+(\d\x7b1,2\x7d):(\d\x7b2\x7d)\s+(.+)$`. -/
def todayWithTime (l : List Char) : Option (List Char × List Char × List Char) :=
  (matchCiLit ("сегодня".toList) l).bind fun r1 =>
  (takeWs1 r1).bind fun r2 =>
  (matchCiLit ("в".toList) r2).bind fun r3 =>
  (takeWs1 r3).bind fun r4 =>
  (takeDigits2 r4).bind fun hr =>
  match hr.2 with
  | ':' :: r6 =>
      (takeDigits2Exact r6).bind fun mr =>
      (takeWs1 mr.2).bind fun r8 =>
      if r8.isEmpty then none else some (hr.1, mr.1, r8)
  | _ => none

/-- `^завтра\s+(.+)$`. -/
def tomorrowDefault (l : List Char) : Option (List Char) :=
  (matchCiLit ("завтра".toList) l).bind fun r1 =>
  (takeWs1 r1).bind fun r2 =>
  if r2.isEmpty then none else some r2

/-- `^сегодня\s+(.+)$`. -/
def todayDefault (l : List Char) : Option (List Char) :=
  (matchCiLit ("сегодня".toList) l).bind fun r1 =>
  (takeWs1 r1).bind fun r2 =>
  if r2.isEmpty then none else some r2

/-- JS regex word character (`\w` = ASCII letter, digit or underscore; JS
`\b` does not treat Cyrillic letters as word characters). -/
def isJsWordChar (c : Char) : Bool :=
  c.isAlpha || c.isDigit || c == '_'

/-- `\b<w>\b` search (case-insensitive) for a word `w` whose first and last
characters are non-word characters in the JS sense (true of `сегодня` and
`завтра`): a JS word boundary then requires a word character on the
adjacent side. -/
def hasWordBoundedCi (w : List Char) : Option Char → List Char → Bool
  | _, [] => false
  | prev, c :: cs =>
      (match matchCiLit w (c :: cs) with
       | some rest =>
           (match prev with | some p => isJsWordChar p | none => false) &&
           (match rest.head? with | some n => isJsWordChar n | none => false)
       | none => false)
      || hasWordBoundedCi w (some c) cs

/-- `/\b(сегодня|завтра)\b/i.test(withoutPrefix)`. -/
def mentionsDayWord (l : List Char) : Bool :=
  hasWordBoundedCi ("сегодня".toList) none l || hasWordBoundedCi ("завтра".toList) none l

/-- The closed failure set of the parser. -/
inductive ParseFailReason where
  | missing_date
  | invalid_time
  | empty_text
  | time_in_past
  | invalid_format
deriving DecidableEq, Repr

/-- The success payload of the parser. -/
structure ParseOkValue where
  text : List Char
  remindAt : Int
  remindDateLabel : List Char
  remindTimeLabel : List Char
deriving DecidableEq, Repr

/-- `ParseReminderResult` of `part_022`. -/
inductive ParseReminderResult where
  | ok (value : ParseOkValue)
  | fail (reason : ParseFailReason)
deriving DecidableEq, Repr

/-- `String(value).padStart(2, "0")` for the nonnegative label components. -/
def pad2 (n : Int) : List Char :=
  let s := Nat.toDigits 10 n.toNat
  if s.length < 2 then '0' :: s else s

/-- The template-selection phase of `parseReminderCommand`: the ordered
regex chain assigning `(year, month, day, hour, minute, text)` or failing
early, exactly as in the source's if/else-if chain. -/
inductive ParsePlan where
  | cont (year month day hour minute : Int) (text : List Char)
  | fail (reason : ParseFailReason)
deriving DecidableEq, Repr

/-- Template selection of `parseReminderCommand(input, nowUtc)`. -/
def parsePlan (input : List Char) (nowUtc : Int) : ParsePlan :=
  let normalized := normalizeInput input
  let withoutPrefix := stripCommandWord normalized
  let moscowNow := getMoscowNowParts nowUtc
  match tomorrowWithTime withoutPrefix with
  | some r =>
      match parseTime r.1 r.2.1 with
      | none => .fail .invalid_time
      | some t =>
          let ymd := addDaysMoscow moscowNow.year moscowNow.month moscowNow.day 1
          .cont ymd.1 ymd.2.1 ymd.2.2 t.1 t.2 (cleanTaskText r.2.2)
  | none =>
  match todayWithTime withoutPrefix with
  | some r =>
      match parseTime r.1 r.2.1 with
      | none => .fail .invalid_time
      | some t =>
          .cont moscowNow.year moscowNow.month moscowNow.day t.1 t.2 (cleanTaskText r.2.2)
  | none =>
  match tomorrowDefault withoutPrefix with
  | some rest =>
      let ymd := addDaysMoscow moscowNow.year moscowNow.month moscowNow.day 1
      .cont ymd.1 ymd.2.1 ymd.2.2 10 0 (cleanTaskText rest)
  | none =>
  match todayDefault withoutPrefix with
  | some rest =>
      let t := defaultTodayTime nowUtc
      .cont moscowNow.year moscowNow.month moscowNow.day t.1 t.2 (cleanTaskText rest)
  | none =>
  if mentionsDayWord withoutPrefix then .fail .invalid_format else .fail .missing_date

/-- The common tail of `parseReminderCommand`: the `hour < 0 || minute < 0`
guard, the empty-text guard, the past-due guard, and label construction. -/
def finishParse (year month day hour minute : Int) (text : List Char)
    (nowUtc : Int) : ParseReminderResult :=
  if hour < 0 || minute < 0 then .fail .invalid_format
  else if text.isEmpty then .fail .empty_text
  else
    let remindAt := toUtcFromMoscowDateTime year month day hour minute
    if remindAt ≤ nowUtc then .fail .time_in_past
    else
      .ok { text := text, remindAt := remindAt,
            remindDateLabel := pad2 day ++ '.' :: pad2 month,
            remindTimeLabel := pad2 hour ++ ':' :: pad2 minute }

/-- `parseReminderCommand(input, nowUtc)` of `part_022`. -/
def parseReminderCommand (input : List Char) (nowUtc : Int) : ParseReminderResult :=
  match parsePlan input nowUtc with
  | .fail r => .fail r
  | .cont y m d h mi text => finishParse y m d h mi text nowUtc

/-! ## Task store (`app/taskService.ts`)

The relational `Task` table is modelled as a `List Task`; `prisma.task.update`
on the primary key is modelled as a map over the list, `findFirst` as
`List.find?`.  `createTaskFromText` first runs `parseTaskSpec` on the raw
text; the store operation is embedded over that parser's output record
(`ParsedTaskSpec`), quantifying over all of its possible values. -/

/-- `TaskStatus` enum of the Prisma schema. -/
inductive TaskStatus where
  | active
  | boxed
  | completed
  | canceled
deriving DecidableEq, Repr

/-- A row of the `Task` table (timestamps that no modelled operation reads,
such as `updatedAt`, are omitted). -/
structure Task where
  id : String
  chatId : String
  text : List Char
  important : Bool
  emoji : String
  status : TaskStatus
  dueAt : Option Int
  remindEveryMinutes : Option Int
  nextReminderAt : Option Int
  completedAt : Option Int
  canceledAt : Option Int
deriving DecidableEq, Repr

/-- `ParsedTaskSpec` of `app/parser.ts` (the fields read by the store). -/
structure ParsedTaskSpec where
  text : List Char
  important : Bool
  dueAt : Option Int
  remindEveryMinutes : Option Int
  askReminderClarification : Bool
deriving DecidableEq, Repr

/-- Case-insensitive substring test (JS `/(...)/i.test`). -/
def containsCi (w : List Char) : List Char → Bool
  | [] => (matchCiLit w []).isSome
  | c :: cs => (matchCiLit w (c :: cs)).isSome || containsCi w cs

/-- `pickEmoji(text)` of the emoji map module (`part_020`). -/
def pickEmoji (text : List Char) : String :=
  if containsCi ("отчет".toList) text || containsCi ("доклад".toList) text then "📄"
  else if containsCi ("звонок".toList) text || containsCi ("созвон".toList) text then "📞"
  else if containsCi ("купить".toList) text || containsCi ("магазин".toList) text then "🛒"
  else if containsCi ("врач".toList) text || containsCi ("здоровье".toList) text then "🩺"
  else if containsCi ("спорт".toList) text || containsCi ("тренировк".toList) text then "💪"
  else if containsCi ("деньги".toList) text || containsCi ("оплата".toList) text ||
      containsCi ("счет".toList) text then "💳"
  else if containsCi ("встреча".toList) text then "🤝"
  else "📝"

/-- Replies of `taskService.ts` used by the guarded status transitions. -/
def replyNotFound : String := "Задача не найдена."

/-- `prisma.task.update(\x7b where: \x7b id \x7d, data \x7d)`: rewrite the row with
the given primary key. -/
def updateTaskRow (tasks : List Task) (id : String) (f : Task → Task) : List Task :=
  tasks.map fun t => if t.id = id then f t else t

/-- `findTaskForChat(chatId, taskId)`: `findFirst` scoped to the chat. -/
def findTaskForChat (chatId taskId : String) (tasks : List Task) : Option Task :=
  tasks.find? fun t => t.id = taskId ∧ t.chatId = chatId

/-- `createTaskFromText(chatId, text)` after `parseTaskSpec`: the
clarification short-circuit and the `prisma.task.create` row; `newId` is
the fresh cuid chosen by the store. -/
def createTaskFromText (chatId : String) (spec : ParsedTaskSpec) (newId : String)
    (tasks : List Task) : List Task × Bool :=
  if spec.askReminderClarification then (tasks, false)
  else
    let status : TaskStatus := if spec.dueAt.isSome then .active else .boxed
    let task : Task :=
      { id := newId, chatId := chatId, text := spec.text, important := spec.important,
        emoji := pickEmoji spec.text, status := status, dueAt := spec.dueAt,
        remindEveryMinutes := spec.remindEveryMinutes,
        nextReminderAt :=
          if spec.dueAt.isSome ∧ spec.remindEveryMinutes.isSome then spec.dueAt else none,
        completedAt := none, canceledAt := none }
    (tasks ++ [task], true)

/-- `markDone(chatId, taskId)`. -/
def markDone (chatId taskId : String) (now : Int) (tasks : List Task) :
    List Task × String :=
  match findTaskForChat chatId taskId tasks with
  | none => (tasks, replyNotFound)
  | some task =>
    if task.status = .completed then (tasks, "Уже выполнено ✅")
    else if task.status = .canceled then (tasks, "Уже отменено ❌")
    else
      (updateTaskRow tasks task.id fun t =>
        { t with status := .completed, completedAt := some now, nextReminderAt := none },
       "Готово, отметил как выполнено ✅")

/-- `cancelTask(chatId, taskId)`. -/
def cancelTask (chatId taskId : String) (now : Int) (tasks : List Task) :
    List Task × String :=
  match findTaskForChat chatId taskId tasks with
  | none => (tasks, replyNotFound)
  | some task =>
    if task.status = .canceled then (tasks, "Уже отменено ❌")
    else if task.status = .completed then (tasks, "Уже выполнено ✅")
    else
      (updateTaskRow tasks task.id fun t =>
        { t with status := .canceled, canceledAt := some now, nextReminderAt := none },
       "Отменил задачу ❌")

/-- `boxTask(chatId, taskId)`. -/
def boxTask (chatId taskId : String) (tasks : List Task) : List Task × String :=
  match findTaskForChat chatId taskId tasks with
  | none => (tasks, replyNotFound)
  | some task =>
    if task.status = .boxed then (tasks, "Уже в коробке 📥")
    else if task.status = .completed then (tasks, "Уже выполнено ✅")
    else if task.status = .canceled then (tasks, "Уже отменено ❌")
    else
      (updateTaskRow tasks task.id fun t =>
        { t with status := .boxed, nextReminderAt := none },
       "Переместил в коробку 📥")

/-- `activateTask(chatId, taskId)`. -/
def activateTask (chatId taskId : String) (tasks : List Task) : List Task × String :=
  match findTaskForChat chatId taskId tasks with
  | none => (tasks, replyNotFound)
  | some task =>
    if task.status = .active then (tasks, "Уже активна 🟢")
    else if task.status = .completed then (tasks, "Уже выполнено ✅")
    else if task.status = .canceled then (tasks, "Уже отменено ❌")
    else if task.dueAt.isNone then
      (tasks, "Нужны дата/время для активации. Укажите новую задачу с дедлайном.")
    else
      (updateTaskRow tasks task.id fun t =>
        { t with status := .active,
                 nextReminderAt := if task.remindEveryMinutes.isSome then task.dueAt else none },
       "Активировал задачу ▶️")

/-- Stable insertion sort by an integer key (models `orderBy ... asc`). -/
def insertByKey (key : Task → Int) (t : Task) : List Task → List Task
  | [] => [t]
  | u :: us => if key t < key u then t :: u :: us else u :: insertByKey key t us

/-- Stable sort by an integer key. -/
def sortByKey (key : Task → Int) : List Task → List Task
  | [] => []
  | t :: ts => insertByKey key t (sortByKey key ts)

/-- `fetchDueReminderBatch(limit)`: active recurring tasks with
`nextReminderAt ≤ now`, earliest first, up to `limit`. -/
def fetchDueReminderBatch (now : Int) (limit : Nat) (tasks : List Task) : List Task :=
  (sortByKey (fun t => (t.nextReminderAt.getD 0))
    (tasks.filter fun t =>
      t.status = .active ∧
      (∃ v, t.nextReminderAt = some v ∧ v ≤ now) ∧
      t.remindEveryMinutes ≠ none)).take limit

/-- `tryCreateSentReminder(taskId, scheduledAt)`: the `SentReminder` ledger
is modelled by its unique key `(taskId, scheduledAt)`; a duplicate-key
violation (`P2002`) is reported as `false`. -/
def tryCreateSentReminder (taskId : String) (scheduledAt : Int)
    (sent : List (String × Int)) : Bool × List (String × Int) :=
  if (taskId, scheduledAt) ∈ sent then (false, sent)
  else (true, sent ++ [(taskId, scheduledAt)])

/-- `advanceNextReminder(task)`: `addMinutes` on the snapshot's
`nextReminderAt` (minutes are converted to milliseconds), written back by
primary key; one-shot or reminder-less tasks get `null`. -/
def advanceNextReminder (task : Task) (tasks : List Task) : List Task :=
  match task.remindEveryMinutes, task.nextReminderAt with
  | some every, some next =>
      updateTaskRow tasks task.id fun t => { t with nextReminderAt := some (next + every * 60000) }
  | _, _ =>
      updateTaskRow tasks task.id fun t => { t with nextReminderAt := none }

/-- Modelled from the spec: `cleanupCompletedOverflow(capPerChat)` is
imported by `app/cron.ts` but its definition is missing from the sources;
§4.3 specifies "keeps only the most-recently-completed N tasks per chat,
deletes the rest". -/
def cleanupCompletedOverflow (cap : Nat) (tasks : List Task) : List Task :=
  tasks.filter fun t =>
    t.status ≠ .completed ∨
    (tasks.filter fun u =>
      u.chatId = t.chatId ∧ u.status = .completed ∧
      u.completedAt.getD 0 > t.completedAt.getD 0).length < cap

/-! ## The ledger-based cron tick (`app/cron.ts`)

`runCronTick(bot)` with the outbound transport abstracted as a function
`sendFails` telling which `(taskId, scheduledAt)` sends throw.  The loop
body is not wrapped in any try/catch in the source, so a throwing send
aborts the tick (`errored`), leaving the ledger row in place.  The trace
records each store/transport effect in program order. -/

/-- Observable events of one ledger-based tick. -/
inductive CronEvent where
  | claim (taskId : String) (scheduledAt : Int) (success : Bool)
  | send (chatId taskId : String) (scheduledAt : Int)
  | advance (taskId : String) (scheduledAt : Int)
deriving DecidableEq, Repr

/-- The store visible to the ledger-based tick. -/
structure CronStore where
  tasks : List Task
  sent : List (String × Int)
deriving DecidableEq, Repr

/-- Result of one ledger-based tick. -/
structure CronResult where
  store : CronStore
  trace : List CronEvent
  processed : Nat
  errored : Bool
deriving DecidableEq, Repr

/-- The `for (const task of tasks)` loop of `runCronTick`. -/
def cronTickGo (sendFails : String → Int → Bool) (batch : List Task)
    (st : CronStore) : CronResult :=
  match batch with
  | [] => ⟨st, [], 0, false⟩
  | task :: rest =>
    match task.nextReminderAt with
    | none => cronTickGo sendFails rest st
    | some sched =>
      let claim := tryCreateSentReminder task.id sched st.sent
      if claim.1 then
        let st' : CronStore := ⟨st.tasks, claim.2⟩
        if sendFails task.id sched then
          ⟨st', [CronEvent.claim task.id sched true], 0, true⟩
        else
          let st'' : CronStore := ⟨advanceNextReminder task st'.tasks, st'.sent⟩
          let r := cronTickGo sendFails rest st''
          ⟨r.store,
           CronEvent.claim task.id sched true :: CronEvent.send task.chatId task.id sched ::
             CronEvent.advance task.id sched :: r.trace,
           r.processed + 1, r.errored⟩
      else
        let r := cronTickGo sendFails rest st
        ⟨r.store, CronEvent.claim task.id sched false :: r.trace, r.processed, r.errored⟩

/-- `runCronTick(bot)` of `app/cron.ts`. -/
def runCronTick (sendFails : String → Int → Bool) (now : Int) (st : CronStore) :
    CronResult :=
  let tasks := cleanupCompletedOverflow 15 st.tasks
  let batch := fetchDueReminderBatch now 100 tasks
  cronTickGo sendFails batch ⟨tasks, st.sent⟩

/-- Replay check: every send event is preceded by a successful claim of the
same occurrence `(taskId, scheduledAt)` earlier in the trace. -/
def sendsClaimed (seen : List (String × Int)) : List CronEvent → Bool
  | [] => true
  | CronEvent.claim tid sched true :: rest => sendsClaimed ((tid, sched) :: seen) rest
  | CronEvent.claim _ _ false :: rest => sendsClaimed seen rest
  | CronEvent.send _ tid sched :: rest =>
      decide ((tid, sched) ∈ seen) && sendsClaimed seen rest
  | CronEvent.advance _ _ :: rest => sendsClaimed seen rest

/-! ## The minimal reminder-bot server (`server.ts`, webhook variant in
`part_023`)

The `Reminder` table of migration `20260223174500_reset_minimal_reminder_bot`,
the webhook-update dedupe ledger (`ProcessedUpdate.id = update_id` primary
key), the outbound `sendTelegramMessage` transport (modelled as an outbox
of `(chatId, text)` sends), and the optimistic-update cron tick. -/

/-- `ReminderStatus` enum (`scheduled`, `sent`, `canceled`). -/
inductive RemStatus where
  | scheduled
  | sent
  | canceled
deriving DecidableEq, Repr

/-- A row of the `Reminder` table. -/
structure Reminder where
  id : Nat
  chatId : String
  text : List Char
  remindAt : Int
  status : RemStatus
  sentAt : Option Int
deriving DecidableEq, Repr

/-- The server's persistent state plus the transport outbox; `nextId` is
the fresh-id source of `prisma.reminder.create`. -/
structure SrvState where
  processed : List Int
  reminders : List Reminder
  outbox : List (String × List Char)
  nextId : Nat
deriving DecidableEq, Repr

/-- Observable events of one optimistic-update tick (`server.ts` variant)
or one send-then-mark tick (`part_023` variant). -/
inductive SrvEvent where
  | claim (id : Nat) (success : Bool)
  | send (chatId : String) (id : Nat)
  | rollback (id : Nat)
deriving DecidableEq, Repr

/-- `prisma.reminder.updateMany(\x7b where, data \x7d)`: rewrite every matching
row and report the affected-row count. -/
def updateManyReminders (p : Reminder → Bool) (f : Reminder → Reminder)
    (rs : List Reminder) : List Reminder × Nat :=
  ((rs.map fun r => if p r then f r else r), (rs.filter p).length)

/-- Stable insertion sort of reminders by an integer key. -/
def insertRemByKey (key : Reminder → Int) (t : Reminder) : List Reminder → List Reminder
  | [] => [t]
  | u :: us => if key t < key u then t :: u :: us else u :: insertRemByKey key t us

/-- Stable sort of reminders by an integer key. -/
def sortRemByKey (key : Reminder → Int) : List Reminder → List Reminder
  | [] => []
  | t :: ts => insertRemByKey key t (sortRemByKey key ts)

/-- The due query shared by both tick variants:
`where \x7b status: "scheduled", remindAt: \x7b lte: now \x7d \x7d, orderBy remindAt asc,
take 100`. -/
def dueReminderQuery (now : Int) (rs : List Reminder) : List Reminder :=
  (sortRemByKey (fun r => r.remindAt)
    (rs.filter fun r => r.status = .scheduled ∧ r.remindAt ≤ now)).take 100

/-- The per-reminder loop body of `runCronTick` in `server.ts`: claim by a
one-row optimistic `updateMany (status: scheduled → sent)`, send only after
the claim, and on a throwing send revert the claim (`status` back to
`scheduled`, `sentAt` cleared).  `sendFails` abstracts the transport;
every `new Date()` taken during the tick is modelled as the tick instant
`now`. -/
def srvTickGo (sendFails : Nat → Bool) (now : Int) (batch : List Reminder)
    (rs : List Reminder) (outbox : List (String × List Char)) :
    List Reminder × List (String × List Char) × Nat × List SrvEvent :=
  match batch with
  | [] => (rs, outbox, 0, [])
  | reminder :: rest =>
    let claimed := updateManyReminders
      (fun r => r.id = reminder.id ∧ r.status = .scheduled)
      (fun r => { r with status := .sent, sentAt := some now }) rs
    if claimed.2 ≠ 1 then
      let r := srvTickGo sendFails now rest claimed.1 outbox
      (r.1, r.2.1, r.2.2.1, SrvEvent.claim reminder.id false :: r.2.2.2)
    else if sendFails reminder.id then
      let rolledBack := updateManyReminders
        (fun r => r.id = reminder.id ∧ r.status = .sent ∧ r.sentAt = some now)
        (fun r => { r with status := .scheduled, sentAt := none }) claimed.1
      let r := srvTickGo sendFails now rest rolledBack.1 outbox
      (r.1, r.2.1, r.2.2.1,
       SrvEvent.claim reminder.id true :: SrvEvent.rollback reminder.id :: r.2.2.2)
    else
      let outbox' := outbox ++
        [(reminder.chatId, ("🔔 Напоминание: ".toList) ++ reminder.text)]
      let r := srvTickGo sendFails now rest claimed.1 outbox'
      (r.1, r.2.1, r.2.2.1 + 1,
       SrvEvent.claim reminder.id true :: SrvEvent.send reminder.chatId reminder.id :: r.2.2.2)

/-- `runCronTick(trigger)` of `server.ts`: the optimistic-update strategy.
Returns the updated state, the count of due rows and the sent count, and
the event trace. -/
def serverRunCronTick (sendFails : Nat → Bool) (now : Int) (st : SrvState) :
    SrvState × Nat × Nat × List SrvEvent :=
  let due := dueReminderQuery now st.reminders
  let r := srvTickGo sendFails now due st.reminders st.outbox
  ({ st with reminders := r.1, outbox := r.2.1 }, due.length, r.2.2.1, r.2.2.2)

/-- The `/cron/tick` handler of `part_023`: sends FIRST, then marks the row
as sent with a one-row `updateMany`.  The transport is assumed to succeed
(a throw would abort the whole loop). -/
def part023TickGo (now : Int) (batch : List Reminder) (rs : List Reminder)
    (outbox : List (String × List Char)) :
    List Reminder × List (String × List Char) × Nat × List SrvEvent :=
  match batch with
  | [] => (rs, outbox, 0, [])
  | reminder :: rest =>
    let outbox' := outbox ++
      [(reminder.chatId, ("🔔 Напоминание: ".toList) ++ reminder.text)]
    let updated := updateManyReminders
      (fun r => r.id = reminder.id ∧ r.status = .scheduled)
      (fun r => { r with status := .sent, sentAt := some now }) rs
    let r := part023TickGo now rest updated.1 outbox'
    (r.1, r.2.1, (if updated.2 = 1 then r.2.2.1 + 1 else r.2.2.1),
     SrvEvent.send reminder.chatId reminder.id ::
       SrvEvent.claim reminder.id (updated.2 == 1) :: r.2.2.2)

/-- The `/cron/tick` endpoint body of `part_023`. -/
def part023CronTick (now : Int) (st : SrvState) :
    SrvState × Nat × Nat × List SrvEvent :=
  let due := dueReminderQuery now st.reminders
  let r := part023TickGo now due st.reminders st.outbox
  ({ st with reminders := r.1, outbox := r.2.1 }, due.length, r.2.2.1, r.2.2.2)

/-- Replay check for server-variant traces: every send is preceded by a
successful (1-row) claim of the same reminder id, not yet rolled back. -/
def srvSendsClaimed (seen : List Nat) : List SrvEvent → Bool
  | [] => true
  | SrvEvent.claim i true :: rest => srvSendsClaimed (i :: seen) rest
  | SrvEvent.claim _ false :: rest => srvSendsClaimed seen rest
  | SrvEvent.rollback i :: rest => srvSendsClaimed (seen.erase i) rest
  | SrvEvent.send _ i :: rest => decide (i ∈ seen) && srvSendsClaimed seen rest

/-! ## Webhook ingress (`server.ts` + `inputExtractor.ts` +
`reminderReplies.ts`)

`processTelegramUpdate` with its idempotent update ledger
(`markUpdateProcessed`), the command branches, and the parse/create/reply
flow.  The `/telegram/webhook` route acknowledges every request with HTTP
200 before this processing runs. -/

/-- A Telegram media part carrying an optional transcript (`types.ts`). -/
structure TgMedia where
  transcript : Option (List Char)
deriving DecidableEq, Repr

/-- `message.chat` (`types.ts`); the JS code immediately stringifies the id,
so it is modelled as the stringified value. -/
structure TgChat where
  id : Option String
deriving DecidableEq, Repr

/-- `update.message` (`types.ts`). -/
structure TgMessage where
  message_id : Option Int
  text : Option (List Char)
  caption : Option (List Char)
  voice : Option TgMedia
  audio : Option TgMedia
  document : Option TgMedia
  chat : Option TgChat
deriving DecidableEq, Repr

/-- `TelegramUpdate` (`types.ts`). -/
structure TelegramUpdate where
  update_id : Option Int
  message : Option TgMessage
deriving DecidableEq, Repr

/-- `extractUserInput`'s result record. -/
structure ExtractedUserInput where
  chatId : String
  userText : Option (List Char)
  messageId : Option Int
  kind : String
deriving DecidableEq, Repr

/-- `asText(value)`: trim when a string, else the empty string. -/
def asText : Option (List Char) → List Char
  | some s => trimEnds s
  | none => []

/-- `extractUserInput(update)` of `inputExtractor.ts`. -/
def extractUserInput (u : TelegramUpdate) : Option ExtractedUserInput :=
  match u.message.bind (fun m => m.chat.bind (fun c => c.id)) with
  | none => none
  | some chatId =>
    let messageId := u.message.bind fun m => m.message_id
    let text := asText (u.message.bind fun m => m.text)
    if text ≠ [] then some ⟨chatId, some text, messageId, "text"⟩ else
    let caption := asText (u.message.bind fun m => m.caption)
    if caption ≠ [] then some ⟨chatId, some caption, messageId, "caption"⟩ else
    let voiceT := asText ((u.message.bind fun m => m.voice).bind fun v => v.transcript)
    if voiceT ≠ [] then some ⟨chatId, some voiceT, messageId, "voice_transcript"⟩ else
    let audioT := asText ((u.message.bind fun m => m.audio).bind fun v => v.transcript)
    if audioT ≠ [] then some ⟨chatId, some audioT, messageId, "audio_transcript"⟩ else
    let docT := asText ((u.message.bind fun m => m.document).bind fun v => v.transcript)
    if docT ≠ [] then some ⟨chatId, some docT, messageId, "document_transcript"⟩ else
    some ⟨chatId, none, messageId, "unknown"⟩

/-- `markUpdateProcessed(updateId)`: insert into `ProcessedUpdate` (primary
key = the update id); a duplicate-key violation (`P2002`) is caught and
reported as `false` instead of raising. -/
def markUpdateProcessed (updateId : Int) (processed : List Int) :
    Bool × List Int :=
  if updateId ∈ processed then (false, processed)
  else (true, updateId :: processed)

/-- `normalizeCommandText(text) = text.toLowerCase().replace(/\s+/g, " ").trim()`. -/
def normalizeCommandText (l : List Char) : List Char :=
  trimEnds (collapseWs (l.map ruLower))

/-- `getMoscowDateParts(utc)` of `server.ts` (year/month/day only). -/
def getMoscowDateParts (utc : Int) : Int × Int × Int :=
  civilFromDays ((utc + MOSCOW_OFFSET_HOURS * 3600000) / 86400000)

/-- `mskToUtcDate(year, month, day, hour, minute)` of `server.ts`. -/
def mskToUtcDate (year month day hour minute : Int) : Int :=
  jsDateUTC year (month - 1) day (hour - 3) minute

/-- `getMskTodayRangeUtc(nowUtc)` of `server.ts`: Moscow-midnight bounds. -/
def getMskTodayRangeUtc (nowUtc : Int) : Int × Int :=
  let ymd := getMoscowDateParts nowUtc
  let from' := mskToUtcDate ymd.1 ymd.2.1 ymd.2.2 0 0
  (from', jsSetUTCDateAdd from' 1)

/-- `getMskTomorrowStartUtc(nowUtc)` of `server.ts`. -/
def getMskTomorrowStartUtc (nowUtc : Int) : Int :=
  jsSetUTCDateAdd (getMskTodayRangeUtc nowUtc).1 1

/-- `formatMskDateTime(utc)` of `server.ts` (`ru-RU`, `dd.MM` and `HH:mm`). -/
def formatMskDateTime (utc : Int) : List Char × List Char :=
  let p := getMoscowNowParts utc
  (pad2 p.day ++ '.' :: pad2 p.month, pad2 p.hour ++ ':' :: pad2 p.minute)

/-- `formatReminderLines(reminders, header, emptyText)` of `server.ts`. -/
def formatReminderLines (rows : List Reminder) (header emptyText : List Char) :
    List Char :=
  if rows.isEmpty then header ++ '\n' :: emptyText
  else
    header ++ '\n' ::
      (List.intercalate ['\n'] (rows.map fun r =>
        let stamp := r.sentAt.getD r.remindAt
        let label := formatMskDateTime stamp
        "• ".toList ++ label.1 ++ ' ' :: label.2 ++ " — ".toList ++ r.text))

/-- Strict "comes before" for `orderBy [\x7b sentAt: desc \x7d, \x7b remindAt: desc \x7d]`
with nulls last. -/
def boxOrderBefore (a b : Reminder) : Bool :=
  match a.sentAt, b.sentAt with
  | some x, some y => x > y || (x == y && a.remindAt > b.remindAt)
  | some _, none => true
  | none, some _ => false
  | none, none => a.remindAt > b.remindAt

/-- Stable insertion sort on a strict "comes before" test. -/
def insertRemBy (before : Reminder → Reminder → Bool) (t : Reminder) :
    List Reminder → List Reminder
  | [] => [t]
  | u :: us => if before t u then t :: u :: us else u :: insertRemBy before t us

/-- Stable sort on a strict "comes before" test. -/
def sortRemBy (before : Reminder → Reminder → Bool) : List Reminder → List Reminder
  | [] => []
  | t :: ts => insertRemBy before t (sortRemBy before ts)

/-- `sendBoxView(chatId)`: last sent reminders. -/
def sendBoxView (chatId : String) (st : SrvState) : SrvState :=
  let rows := (sortRemBy boxOrderBefore
    (st.reminders.filter fun r => r.chatId = chatId ∧ r.status = .sent)).take 30
  { st with outbox := st.outbox ++
      [(chatId, formatReminderLines rows ("📥 Коробка".toList) ("Пока пусто.".toList))] }

/-- `sendAllFutureView(chatId)`: scheduled reminders from tomorrow on. -/
def sendAllFutureView (now : Int) (chatId : String) (st : SrvState) : SrvState :=
  let from' := getMskTomorrowStartUtc now
  let rows := (sortRemByKey (fun r => r.remindAt)
    (st.reminders.filter fun r =>
      r.chatId = chatId ∧ r.status = .scheduled ∧ from' ≤ r.remindAt)).take 100
  { st with outbox := st.outbox ++
      [(chatId, formatReminderLines rows ("🗂 Все задачи".toList)
          ("Нет будущих напоминаний.".toList))] }

/-- `sendTodayView(chatId)`: today's scheduled reminders. -/
def sendTodayView (now : Int) (chatId : String) (st : SrvState) : SrvState :=
  let range := getMskTodayRangeUtc now
  let rows := (sortRemByKey (fun r => r.remindAt)
    (st.reminders.filter fun r =>
      r.chatId = chatId ∧ r.status = .scheduled ∧
      range.1 ≤ r.remindAt ∧ r.remindAt < range.2)).take 100
  { st with outbox := st.outbox ++
      [(chatId, formatReminderLines rows ("📅 Что сегодня".toList)
          ("На сегодня напоминаний нет.".toList))] }

/-- `buildMissingTextReply()` of `reminderReplies.ts`. -/
def buildMissingTextReply : List Char :=
  "Пришли текстом: завтра в 09:30 позвонить маме".toList

/-- `buildMissingDateReply()` of `reminderReplies.ts`. -/
def buildMissingDateReply : List Char :=
  ("Когда напомнить? Пример: " ++ "'завтра в 09:30 позвонить маме'").toList

/-- `buildParseFailedReply()` of `reminderReplies.ts`. -/
def buildParseFailedReply : List Char :=
  ("Не понял.\nзавтра полить цветок\nзавтра в 09:30 позвонить маме\n" ++
    "сегодня в 21:30 выключить плиту").toList

/-- `buildConfirmationReply(remindDateLabel, remindTimeLabel, taskText)`. -/
def buildConfirmationReply (dateLabel timeLabel taskText : List Char) : List Char :=
  "Ок. Напомню ".toList ++ dateLabel ++ " в ".toList ++ timeLabel ++
    " (МСК): ".toList ++ taskText

/-- The `/help` reply of `server.ts`. -/
def helpReply : List Char :=
  ("Команды:\n• Что сегодня\n• Все задачи\n• Коробка\n• /today /all /box\n" ++
    "• /tick (только владелец)").toList

/-- `processTelegramUpdate(update)` of `server.ts`: numeric-id guard, input
extraction, the idempotent ledger, command dispatch, and the
parse/create/confirm flow.  `ownerChatId`/`cronSecret` model the
environment configuration; the transport always succeeds here.  The
`/telegram/webhook` route has already acknowledged the sender with HTTP
200 (`telegramWebhookStatus`) before this runs. -/
def processTelegramUpdate (ownerChatId cronSecret : String) (now : Int)
    (u : TelegramUpdate) (st : SrvState) : SrvState :=
  match u.update_id with
  | none => st
  | some uid =>
    match extractUserInput u with
    | none => st
    | some extracted =>
      let inserted := markUpdateProcessed uid st.processed
      if !inserted.1 then st
      else
        let st := { st with processed := inserted.2 }
        match extracted.userText with
        | none =>
            { st with outbox := st.outbox ++ [(extracted.chatId, buildMissingTextReply)] }
        | some text =>
          let normalizedText := normalizeCommandText text
          if normalizedText = "/help".toList then
            { st with outbox := st.outbox ++ [(extracted.chatId, helpReply)] }
          else if normalizedText = "/tick".toList then
            if ownerChatId = "" ∨ extracted.chatId ≠ ownerChatId then
              { st with outbox := st.outbox ++
                  [(extracted.chatId, "Команда недоступна.".toList)] }
            else
              let r := serverRunCronTick (fun _ => false) now st
              { r.1 with outbox := r.1.outbox ++
                  [(extracted.chatId,
                    "tick ok: sent ".toList ++ Nat.toDigits 10 r.2.2.1)] }
          else if normalizedText = "коробка".toList ∨ normalizedText = "/box".toList then
            sendBoxView extracted.chatId st
          else if normalizedText = "все задачи".toList ∨ normalizedText = "/all".toList then
            sendAllFutureView now extracted.chatId st
          else if normalizedText = "что сегодня".toList ∨ normalizedText = "/today".toList then
            sendTodayView now extracted.chatId st
          else
            match parseReminderCommand text now with
            | .fail reason =>
              if reason = .missing_date then
                { st with outbox := st.outbox ++
                    [(extracted.chatId, buildMissingDateReply)] }
              else
                { st with outbox := st.outbox ++
                    [(extracted.chatId, buildParseFailedReply)] }
            | .ok v =>
              let reminder : Reminder :=
                { id := st.nextId, chatId := extracted.chatId, text := v.text,
                  remindAt := v.remindAt, status := .scheduled, sentAt := none }
              let st := { st with
                reminders := st.reminders ++ [reminder]
                nextId := st.nextId + 1 }
              let confirm := buildConfirmationReply v.remindDateLabel v.remindTimeLabel v.text
              let msg := if cronSecret = "" then
                  confirm ++ '\n' ::
                    "Напоминания заработают после включения cron (см. /help).".toList
                else confirm
              { st with outbox := st.outbox ++ [(extracted.chatId, msg)] }

/-- The `/telegram/webhook` route of `server.ts` acknowledges every request
with HTTP 200 before `processTelegramUpdate` runs asynchronously. -/
def telegramWebhookStatus (_ : TelegramUpdate) : Nat := 200

/-! ## Interleaving semantics of concurrent ledger-based ticks

`POST /cron/tick` may be invoked by several external schedulers at once;
each invocation runs `runCronTick` of `app/cron.ts`, whose store effects
are individually atomic awaited operations (the batch query, the
unique-keyed ledger insert, the transport send, the `nextReminderAt`
update), interleaved arbitrarily between invocations.

The machine below is that interleaving semantics specialized to a store
holding exactly one due task: an `active` task with `remindEveryMinutes`
set and `nextReminderAt = some r ≤ now` (`cleanupCompletedOverflow` only
deletes completed rows and cannot touch it).  Each process is one tick
invocation; its program counter records how far its loop body has
progressed for that task, carrying the snapshot value it fetched.  The
transport is assumed to succeed. -/

/-- Program counter of one tick invocation over the single due task. -/
inductive TickPC where
  | fetch
  | claim (snap : Int)
  | send (snap : Int)
  | advance (snap : Int)
  | done
deriving DecidableEq, Repr

/-- Shared store plus the processes of the concurrent-tick machine:
the task's `nextReminderAt` column, its `SentReminder` ledger rows
(scheduled instants), the transport sends and `advanceNextReminder`
executions observed so far, and the multiset of process counters. -/
structure ConcState where
  nra : Option Int
  ledger : List Int
  sends : List Int
  advances : List Int
  procs : Multiset TickPC
deriving DecidableEq

/-- One atomic step of one tick invocation (`now` is the tick-due bound,
`every` the task's `remindEveryMinutes`). -/
inductive TickStep (now every : Int) : ConcState → ConcState → Prop where
  | fetch_due (s : ConcState) (v : Int)
      (h : TickPC.fetch ∈ s.procs) (hv : s.nra = some v) (hdue : v ≤ now) :
      TickStep now every s
        ⟨s.nra, s.ledger, s.sends, s.advances,
         TickPC.claim v ::ₘ s.procs.erase TickPC.fetch⟩
  | fetch_empty (s : ConcState)
      (h : TickPC.fetch ∈ s.procs) (hnone : ∀ v, s.nra = some v → ¬ v ≤ now) :
      TickStep now every s
        ⟨s.nra, s.ledger, s.sends, s.advances,
         TickPC.done ::ₘ s.procs.erase TickPC.fetch⟩
  | claim_win (s : ConcState) (v : Int)
      (h : TickPC.claim v ∈ s.procs) (hnew : v ∉ s.ledger) :
      TickStep now every s
        ⟨s.nra, s.ledger ++ [v], s.sends, s.advances,
         TickPC.send v ::ₘ s.procs.erase (TickPC.claim v)⟩
  | claim_dup (s : ConcState) (v : Int)
      (h : TickPC.claim v ∈ s.procs) (hdup : v ∈ s.ledger) :
      TickStep now every s
        ⟨s.nra, s.ledger, s.sends, s.advances,
         TickPC.done ::ₘ s.procs.erase (TickPC.claim v)⟩
  | send (s : ConcState) (v : Int)
      (h : TickPC.send v ∈ s.procs) :
      TickStep now every s
        ⟨s.nra, s.ledger, s.sends ++ [v], s.advances,
         TickPC.advance v ::ₘ s.procs.erase (TickPC.send v)⟩
  | advance (s : ConcState) (v : Int)
      (h : TickPC.advance v ∈ s.procs) :
      TickStep now every s
        ⟨some (v + every * 60000), s.ledger, s.sends,
         s.advances ++ [v],
         TickPC.done ::ₘ s.procs.erase (TickPC.advance v)⟩

/-- Initial state: the one task is due at `r`, nothing claimed or sent,
`n` tick invocations about to query the store. -/
def initTickState (n : Nat) (r : Int) : ConcState :=
  ⟨some r, [], [], [], Multiset.replicate n TickPC.fetch⟩

/-- All invocations have finished. -/
def allDone (s : ConcState) : Prop :=
  ∀ pc ∈ s.procs, pc = TickPC.done

/-- The inductive invariant of the machine: the only snapshot value in
flight is `r`, and the system is in one of four phases — unclaimed,
claimed-not-sent, sent-not-advanced, advanced. -/
def tickInv (r every : Int) (s : ConcState) : Prop :=
  (∀ v, TickPC.claim v ∈ s.procs → v = r) ∧
  (∀ v, TickPC.send v ∈ s.procs → v = r) ∧
  (∀ v, TickPC.advance v ∈ s.procs → v = r) ∧
  ((s.ledger = [] ∧ s.sends = [] ∧ s.advances = [] ∧ s.nra = some r ∧
      (∀ pc ∈ s.procs, pc = TickPC.fetch ∨ pc = TickPC.claim r)) ∨
   (s.ledger = [r] ∧ s.sends = [] ∧ s.advances = [] ∧ s.nra = some r ∧
      s.procs.count (TickPC.send r) = 1 ∧ s.procs.count (TickPC.advance r) = 0) ∨
   (s.ledger = [r] ∧ s.sends = [r] ∧ s.advances = [] ∧ s.nra = some r ∧
      s.procs.count (TickPC.send r) = 0 ∧ s.procs.count (TickPC.advance r) = 1) ∨
   (s.ledger = [r] ∧ s.sends = [r] ∧ s.advances = [r] ∧
      s.nra = some (r + every * 60000) ∧
      s.procs.count (TickPC.send r) = 0 ∧ s.procs.count (TickPC.advance r) = 0))

/-- The invariant of C8 for one task row: a non-null `nextReminderAt`
implies status `active` and a non-null `dueAt`. -/
def taskNraInv (t : Task) : Prop :=
  t.nextReminderAt ≠ none → t.status = .active ∧ t.dueAt ≠ none

/-- Store states reachable through the task-store operations, starting from
the empty store; `create` draws a fresh id (the primary-key guarantee of
the store), and `advanceNextReminder` is applied to a row fetched from the
store, as `runCronTick` does. -/
inductive ReachableStore : List Task → Prop where
  | empty : ReachableStore []
  | create (s : List Task) (chatId : String) (spec : ParsedTaskSpec) (newId : String)
      (h : ReachableStore s) (hfresh : ∀ u ∈ s, u.id ≠ newId) :
      ReachableStore (createTaskFromText chatId spec newId s).1
  | done (s : List Task) (chatId taskId : String) (now : Int)
      (h : ReachableStore s) : ReachableStore (markDone chatId taskId now s).1
  | cancel (s : List Task) (chatId taskId : String) (now : Int)
      (h : ReachableStore s) : ReachableStore (cancelTask chatId taskId now s).1
  | box (s : List Task) (chatId taskId : String)
      (h : ReachableStore s) : ReachableStore (boxTask chatId taskId s).1
  | activate (s : List Task) (chatId taskId : String)
      (h : ReachableStore s) : ReachableStore (activateTask chatId taskId s).1
  | advance (s : List Task) (task : Task)
      (h : ReachableStore s) (hmem : task ∈ s) :
      ReachableStore (advanceNextReminder task s)

/-- The combined inductive invariant: nodup ids plus the C8 predicate. -/
def storeInv (tasks : List Task) : Prop :=
  (tasks.map (fun t => t.id)).Nodup ∧ ∀ t ∈ tasks, taskNraInv t

/-! ### Correctness of the civil-date round trip -/

/-- Year-of-era recovery, core form: the year-of-era is split as
`yoe = 100c + 4t + u` (century, quadrennium, year), under which every
division in the approximate formula of `civilFromDays` resolves. -/
theorem yoe_recover_core (c t u doy doe : Int)
    (hc0 : 0 ≤ c) (hc1 : c ≤ 3) (ht0 : 0 ≤ t) (ht1 : t ≤ 24)
    (hu0 : 0 ≤ u) (hu1 : u ≤ 3) (hs : 4 * t + u ≤ 99) (hdy0 : 0 ≤ doy)
    (hval : doe = 36524 * c + 1461 * t + 365 * u + doy)
    (hdy1 : doy ≤ 364 ∨ (doy = 365 ∧ u = 3 ∧ (t ≠ 24 ∨ c = 3))) :
    (doe - doe / 1460 + doe / 36524 - doe / 146096) / 365 = 100 * c + 4 * t + u := by
  have hdy365 : doy ≤ 365 := by rcases hdy1 with h | h <;> omega
  have hA : doe / 36524 = c ∨ (doe / 36524 = c + 1 ∧ 1461 * t + 365 * u + doy = 36524) := by
    omega
  have hB : doe / 146096 = 0 ∨ (doe / 146096 = 1 ∧ doe = 146096) := by omega
  have hbig : doe / 36524 - doe / 146096 = c := by
    rcases hdy1 with h | h
    · rcases hA with hA | hA
      · rcases hB with hB | hB <;> omega
      · omega
    · rcases hA with hA | hA
      · rcases hB with hB | hB <;> omega
      · rcases hB with hB | hB <;> omega
  have hF : doe / 1460 = 25 * c + t ∨
      (doe / 1460 = 25 * c + t + 1 ∧ 24 * c + t + 365 * u + doy ≥ 1460) := by
    omega
  rcases hdy1 with h | h
  · rcases hF with hF | hF <;> omega
  · rcases hF with hF | hF <;> omega

/-- Year-of-era recovery: the approximate-division formula of
`civilFromDays` returns the year-of-era that `daysFromCivil` started from.
`doy ≤ 364`, or `doy = 365` in a (shifted, era-relative) leap year. -/
theorem yoe_recover (yoe doy : Int)
    (hy0 : 0 ≤ yoe) (hy1 : yoe ≤ 399) (hd0 : 0 ≤ doy)
    (hdoy : doy ≤ 364 ∨
      (doy = 365 ∧ (yoe + 1) % 4 = 0 ∧ ((yoe + 1) % 100 ≠ 0 ∨ (yoe + 1) % 400 = 0))) :
    ((yoe * 365 + yoe / 4 - yoe / 100 + doy)
        - (yoe * 365 + yoe / 4 - yoe / 100 + doy) / 1460
        + (yoe * 365 + yoe / 4 - yoe / 100 + doy) / 36524
        - (yoe * 365 + yoe / 4 - yoe / 100 + doy) / 146096) / 365 = yoe := by
  obtain ⟨c, s, hcs, hs0, hs1⟩ : ∃ c s, yoe = 100 * c + s ∧ 0 ≤ s ∧ s ≤ 99 :=
    ⟨yoe / 100, yoe % 100, by omega, by omega, by omega⟩
  obtain ⟨t, u, hst, hu0, hu1⟩ : ∃ t u, s = 4 * t + u ∧ 0 ≤ u ∧ u ≤ 3 :=
    ⟨s / 4, s % 4, by omega, by omega, by omega⟩
  have hc0 : 0 ≤ c := by omega
  have hc1 : c ≤ 3 := by omega
  have ht0 : 0 ≤ t := by omega
  have ht1 : t ≤ 24 := by omega
  have h4 : yoe / 4 = 25 * c + t := by omega
  have h100 : yoe / 100 = c := by omega
  have hval : yoe * 365 + yoe / 4 - yoe / 100 + doy
      = 36524 * c + 1461 * t + 365 * u + doy := by
    rw [h4, h100]; omega
  have hleap : doy ≤ 364 ∨ (doy = 365 ∧ u = 3 ∧ (t ≠ 24 ∨ c = 3)) := by
    rcases hdoy with h | ⟨h365, h4', h100'⟩
    · exact Or.inl h
    · right
      refine ⟨h365, by omega, ?_⟩
      rcases h100' with h' | h' <;> omega
  have hcore := yoe_recover_core c t u doy
    (yoe * 365 + yoe / 4 - yoe / 100 + doy)
    hc0 hc1 ht0 ht1 hu0 hu1 (by omega) hd0 hval hleap
  omega

/-- Month/day-of-month recovery inside a shifted (March-first) year. -/
theorem mp_d_recover (mp d : Int)
    (hmp0 : 0 ≤ mp) (hmp1 : mp ≤ 11) (hd1 : 1 ≤ d) (hd31 : d ≤ 31)
    (h30 : mp = 1 ∨ mp = 3 ∨ mp = 6 ∨ mp = 8 → d ≤ 30)
    (h29 : mp = 11 → d ≤ 29) :
    (5 * ((153 * mp + 2) / 5 + d - 1) + 2) / 153 = mp := by
  interval_cases mp <;> omega

/-- Introduction rule for `civilFromDays`: if the intermediate quantities of
the decomposition are given by the stated equations, the decomposition
returns `(y, m, d)`. -/
theorem civilFromDays_eq_of (z era doe yoe doy mp y m d : Int)
    (h1 : z + 719468 = era * 146097 + doe)
    (h2 : 0 ≤ doe) (h3 : doe ≤ 146096)
    (h4 : (doe - doe / 1460 + doe / 36524 - doe / 146096) / 365 = yoe)
    (h5 : doe - (365 * yoe + yoe / 4 - yoe / 100) = doy)
    (h6 : (5 * doy + 2) / 153 = mp)
    (h7 : doy - (153 * mp + 2) / 5 + 1 = d)
    (h8 : (if mp < 10 then mp + 3 else mp - 9) = m)
    (h9 : yoe + era * 400 + (if m ≤ 2 then 1 else 0) = y) :
    civilFromDays z = (y, m, d) := by
  simp only [civilFromDays]
  rw [h1]
  have hera : (era * 146097 + doe) / 146097 = era := by omega
  rw [hera]
  have hdoe : era * 146097 + doe - era * 146097 = doe := by ring
  rw [hdoe, h4, h5, h6, h7, h8, h9]

/-- The civil-date round trip: decomposing the day number produced by
`daysFromCivil` recovers the original valid civil date. -/
theorem civilFromDays_daysFromCivil (y m d : Int)
    (hm1 : 1 ≤ m) (hm2 : m ≤ 12) (hd1 : 1 ≤ d) (hd2 : d ≤ daysInMonth y m) :
    civilFromDays (daysFromCivil y m d) = (y, m, d) := by
  obtain ⟨y', hy'⟩ : ∃ a, a = (if m ≤ 2 then y - 1 else y) := ⟨_, rfl⟩
  obtain ⟨era, hera⟩ : ∃ a, a = y' / 400 := ⟨_, rfl⟩
  obtain ⟨yoe, hyoe⟩ : ∃ a, a = y' - era * 400 := ⟨_, rfl⟩
  obtain ⟨mp, hmp⟩ : ∃ a, a = (if 2 < m then m - 3 else m + 9) := ⟨_, rfl⟩
  obtain ⟨doy, hdoy⟩ : ∃ a, a = (153 * mp + 2) / 5 + d - 1 := ⟨_, rfl⟩
  obtain ⟨doe, hdoe⟩ : ∃ a, a = yoe * 365 + yoe / 4 - yoe / 100 + doy := ⟨_, rfl⟩
  have hyoe0 : 0 ≤ yoe := by omega
  have hyoe1 : yoe ≤ 399 := by omega
  have hmp0 : 0 ≤ mp := by rw [hmp]; split <;> omega
  have hmp1 : mp ≤ 11 := by rw [hmp]; split <;> omega
  have hdoy0 : 0 ≤ doy := by omega
  -- translate the `daysInMonth` bound into shifted-month bounds
  have hd31 : d ≤ 31 := by
    unfold daysInMonth at hd2
    by_cases h2 : m = 2
    · rw [if_pos h2] at hd2
      split at hd2 <;> omega
    · rw [if_neg h2] at hd2
      split at hd2 <;> omega
  have h30 : mp = 1 ∨ mp = 3 ∨ mp = 6 ∨ mp = 8 → d ≤ 30 := by
    intro hcase
    have hmval : m = 4 ∨ m = 6 ∨ m = 9 ∨ m = 11 := by
      rw [hmp] at hcase; split at hcase <;> omega
    unfold daysInMonth at hd2
    rw [if_neg (by omega : ¬ m = 2), if_pos hmval] at hd2
    exact hd2
  have h29 : mp = 11 → d ≤ 29 := by
    intro hcase
    have hm2' : m = 2 := by rw [hmp] at hcase; split at hcase <;> omega
    unfold daysInMonth at hd2
    rw [if_pos hm2'] at hd2
    split at hd2 <;> omega
  have hdoyB : doy ≤ 364 ∨ (doy = 365 ∧ mp = 11 ∧ d = 29) := by
    interval_cases mp <;> omega
  -- `doy = 365` forces February 29, hence a leap year of the shifted era
  have hleap : doy ≤ 364 ∨
      (doy = 365 ∧ (yoe + 1) % 4 = 0 ∧ ((yoe + 1) % 100 ≠ 0 ∨ (yoe + 1) % 400 = 0)) := by
    rcases hdoyB with h | ⟨h365, hmp11, hd29⟩
    · exact Or.inl h
    · right
      have hm2' : m = 2 := by rw [hmp] at hmp11; split at hmp11 <;> omega
      have hy'' : y' = y - 1 := by rw [hy', if_pos (by omega : m ≤ 2)]
      have hyval : y = 400 * era + yoe + 1 := by omega
      unfold daysInMonth at hd2
      rw [if_pos hm2'] at hd2
      have hly : isLeap y = true := by
        by_contra hno
        rw [Bool.not_eq_true] at hno
        rw [hno] at hd2
        simp only [Bool.false_eq_true, if_false] at hd2
        omega
      unfold isLeap at hly
      simp only [Bool.and_eq_true, Bool.or_eq_true, beq_iff_eq, bne_iff_ne] at hly
      refine ⟨h365, by omega, ?_⟩
      rcases hly.2 with h' | h' <;> omega
  have hdoyle : doy ≤ 365 := by rcases hdoyB with h | h <;> omega
  refine civilFromDays_eq_of _ era doe yoe doy mp y m d ?_ ?_ ?_ ?_ ?_ ?_ ?_ ?_ ?_
  · -- daysFromCivil unfolds to the era/day-of-era decomposition
    simp only [daysFromCivil]
    rw [← hy', ← hmp]
    omega
  · omega
  · omega
  · have := yoe_recover yoe doy hyoe0 hyoe1 hdoy0 hleap
    omega
  · omega
  · have := mp_d_recover mp d hmp0 hmp1 hd1 hd31 h30 h29
    omega
  · omega
  · rw [hmp]
    by_cases h2m : 2 < m
    · rw [if_pos h2m, if_pos (by omega : m - 3 < 10)]
      omega
    · rw [if_neg h2m, if_neg (by omega : ¬ m + 9 < 10)]
      omega
  · by_cases hm2 : m ≤ 2
    · have : y' = y - 1 := by rw [hy', if_pos hm2]
      rw [if_pos hm2]
      omega
    · have : y' = y := by rw [hy', if_neg hm2]
      rw [if_neg hm2]
      omega


/-! ## Claim C7: the civil round trip through the Moscow zone -/

/-- Every civil date from 2015 on lies at or after day 16436
(= 2015-01-01) of the epoch. -/
theorem daysFromCivil_ge (y m d : Int) (hy : 2015 ≤ y)
    (hm1 : 1 ≤ m) (hm2 : m ≤ 12) (hd : 1 ≤ d) :
    16436 ≤ daysFromCivil y m d := by
  simp only [daysFromCivil]
  by_cases hm : m ≤ 2
  · rw [if_pos hm, if_neg (by omega : ¬ 2 < m)]
    omega
  · rw [if_neg hm, if_pos (by omega : 2 < m)]
    omega

/-- On instants at or after the 2014-10-26 transition, the
instant-dependent formatter model agrees with the constant-UTC+3
decomposition. -/
theorem getMoscowNowPartsTz_modern (t : Int) (h : MSK_UTC4_END ≤ t) :
    getMoscowNowPartsTz t = getMoscowNowParts t := by
  simp only [MSK_UTC4_END] at h
  simp only [getMoscowNowPartsTz, getMoscowNowParts, moscowUtcOffsetMs,
    MSK_UTC4_START, MSK_UTC4_END, MOSCOW_OFFSET_HOURS]
  rw [if_neg (by omega), if_neg (by omega)]

/-- C7 counterexample: the round trip fails outside the post-2014
constant-offset era.  `Date.UTC` maps the integer year 50 to 1950, so the
civil tuple 50-06-15 12:00 comes back as 1950-06-15 12:00; and during the
2011-2014 permanent-UTC+4 era of Europe/Moscow the tuple 2012-06-15 12:00
comes back as 13:00, because `toUtcFromMoscowDateTime` hard-codes the
offset 3 while the formatter applies the zone's real offset 4. -/
theorem claim_C7_counterexample :
    getMoscowNowPartsTz (toUtcFromMoscowDateTime 50 6 15 12 0) =
      ⟨1950, 6, 15, 12, 0⟩ ∧
    getMoscowNowPartsTz (toUtcFromMoscowDateTime 50 6 15 12 0) ≠
      ⟨50, 6, 15, 12, 0⟩ ∧
    getMoscowNowPartsTz (toUtcFromMoscowDateTime 2012 6 15 12 0) =
      ⟨2012, 6, 15, 13, 0⟩ ∧
    getMoscowNowPartsTz (toUtcFromMoscowDateTime 2012 6 15 12 0) ≠
      ⟨2012, 6, 15, 12, 0⟩ := by decide

/-- C7 (amended): for every valid civil wall-clock tuple `(year, month,
day, hour, minute)` with a year from 2015 to 9999 — the era in which
Europe/Moscow is the fixed offset UTC+3, and the year is outside the
two-digit remapping of `Date.UTC` — decomposing the absolute instant
produced by `toUtcFromMoscowDateTime` back into Moscow civil parts with
the formatter model recovers exactly the original tuple.  Outside that
domain the round trip genuinely fails in the program (see the
counterexample). -/
theorem claim_C7_moscow_roundtrip (y m d h mi : Int)
    (hy1 : 2015 ≤ y) (hy2 : y ≤ 9999)
    (hm1 : 1 ≤ m) (hm2 : m ≤ 12) (hd1 : 1 ≤ d) (hd2 : d ≤ daysInMonth y m)
    (hh0 : 0 ≤ h) (hh1 : h ≤ 23) (hmi0 : 0 ≤ mi) (hmi1 : mi ≤ 59) :
    getMoscowNowPartsTz (toUtcFromMoscowDateTime y m d h mi) =
      ⟨y, m, d, h, mi⟩ := by
  obtain ⟨D, hD⟩ : ∃ a, a = daysFromCivil y m d := ⟨_, rfl⟩
  have hcivil : civilFromDays D = (y, m, d) := by
    rw [hD]; exact civilFromDays_daysFromCivil y m d hm1 hm2 hd1 hd2
  have hDge : 16436 ≤ D := by
    rw [hD]; exact daysFromCivil_ge y m d hy1 hm1 hm2 hd1
  have ht : toUtcFromMoscowDateTime y m d h mi =
      D * 86400000 + (h - 3) * 3600000 + mi * 60000 := by
    simp only [toUtcFromMoscowDateTime, jsDateUTC, MOSCOW_OFFSET_HOURS]
    rw [if_neg (by omega : ¬(0 ≤ y ∧ y ≤ 99)), show m - 1 + 1 = m by ring, ← hD]
  rw [ht]
  have hoff : moscowUtcOffsetMs (D * 86400000 + (h - 3) * 3600000 + mi * 60000)
      = 3 * 3600000 := by
    simp only [moscowUtcOffsetMs, MSK_UTC4_START, MSK_UTC4_END]
    rw [if_neg (by omega), if_neg (by omega)]
  simp only [getMoscowNowPartsTz, hoff]
  have hdayNum : (D * 86400000 + (h - 3) * 3600000 + mi * 60000 + 3 * 3600000)
      / 86400000 = D := by omega
  rw [hdayNum, hcivil]
  have hhour : (D * 86400000 + (h - 3) * 3600000 + mi * 60000 + 3 * 3600000)
      / 3600000 % 24 = h := by omega
  have hmin : (D * 86400000 + (h - 3) * 3600000 + mi * 60000 + 3 * 3600000)
      / 60000 % 60 = mi := by omega
  rw [hhour, hmin]

/-- Witness for C7 at the concrete tuple 2026-02-23 22:00. -/
theorem claim_C7_moscow_roundtrip_witness :
    getMoscowNowPartsTz (toUtcFromMoscowDateTime 2026 2 23 22 0) =
      ⟨2026, 2, 23, 22, 0⟩ :=
  claim_C7_moscow_roundtrip 2026 2 23 22 0 (by decide) (by decide) (by decide)
    (by decide) (by decide) (by decide) (by decide) (by decide) (by decide)
    (by decide)

/-! ## Claims C3, C4, C5: the parser -/

/-- `parseTime` only succeeds inside the valid clock range. -/
theorem parseTime_some_bounds (a b : List Char) (t : Int × Int)
    (h : parseTime a b = some t) :
    0 ≤ t.1 ∧ t.1 ≤ 23 ∧ 0 ≤ t.2 ∧ t.2 ≤ 59 := by
  simp only [parseTime] at h
  split at h
  · exact absurd h (by simp)
  · next hcond =>
    simp only [Bool.or_eq_true, decide_eq_true_eq, not_or] at hcond
    cases h
    omega

/-- `defaultTodayTime` stays inside the valid clock range. -/
theorem defaultTodayTime_bounds (now : Int) :
    0 ≤ (defaultTodayTime now).1 ∧ (defaultTodayTime now).1 ≤ 23 ∧
    0 ≤ (defaultTodayTime now).2 ∧ (defaultTodayTime now).2 ≤ 59 := by
  simp only [defaultTodayTime, MOSCOW_OFFSET_HOURS]
  split
  · dsimp only
    omega
  · split
    · dsimp only
      omega
    · dsimp only
      omega

/-- Reduction of `parseReminderCommand` once the selection phase is known
to have reached the common tail. -/
theorem parseReminderCommand_cont (input : List Char) (now y m d h mi : Int)
    (text : List Char) (hp : parsePlan input now = .cont y m d h mi text) :
    parseReminderCommand input now = finishParse y m d h mi text now := by
  unfold parseReminderCommand
  rw [hp]

/-- Reduction of `parseReminderCommand` when the selection phase failed. -/
theorem parseReminderCommand_fail (input : List Char) (now : Int)
    (r : ParseFailReason) (hp : parsePlan input now = .fail r) :
    parseReminderCommand input now = .fail r := by
  unfold parseReminderCommand
  rw [hp]

/-- Every `cont` outcome of the template-selection phase carries an
in-range hour and minute. -/
theorem parsePlan_cont_bounds (input : List Char) (now : Int)
    (y m d h mi : Int) (text : List Char)
    (hp : parsePlan input now = .cont y m d h mi text) :
    0 ≤ h ∧ h ≤ 23 ∧ 0 ≤ mi ∧ mi ≤ 59 := by
  simp only [parsePlan] at hp
  split at hp
  · -- tomorrowWithTime matched
    split at hp
    · exact absurd hp (by simp)
    · next t ht =>
      cases hp
      exact parseTime_some_bounds _ _ _ ht
  · split at hp
    · -- todayWithTime matched
      split at hp
      · exact absurd hp (by simp)
      · next t ht =>
        cases hp
        exact parseTime_some_bounds _ _ _ ht
    · split at hp
      · -- tomorrowDefault matched
        cases hp
        omega
      · split at hp
        · -- todayDefault matched
          cases hp
          exact ⟨(defaultTodayTime_bounds now).1, (defaultTodayTime_bounds now).2.1,
            (defaultTodayTime_bounds now).2.2.1, (defaultTodayTime_bounds now).2.2.2⟩
        · split at hp <;> exact absurd hp (by simp)

/-- C3: whenever a template matched (the selection phase reached the
common tail with a nonempty cleaned text) and the computed due instant is
not strictly after `now`, the parser returns the typed failure
`time_in_past`; a successful parse always has a strictly-future due
instant; and scenario B (`"напомни сегодня в 21:30 выключить плиту"` at
civil-now 2026-02-23 22:00 Moscow) fails with `time_in_past`. -/
theorem claim_C3_time_in_past :
    (∀ (input : List Char) (now y m d h mi : Int) (text : List Char),
        parsePlan input now = .cont y m d h mi text →
        text ≠ [] →
        toUtcFromMoscowDateTime y m d h mi ≤ now →
        parseReminderCommand input now = .fail .time_in_past) ∧
    (∀ (input : List Char) (now : Int) (v : ParseOkValue),
        parseReminderCommand input now = .ok v → now < v.remindAt) ∧
    parseReminderCommand ("напомни сегодня в 21:30 выключить плиту".toList)
        (toUtcFromMoscowDateTime 2026 2 23 22 0) = .fail .time_in_past := by
  refine ⟨?_, ?_, by decide⟩
  · intro input now y m d h mi text hp htext hpast
    have hb := parsePlan_cont_bounds input now y m d h mi text hp
    rw [parseReminderCommand_cont input now y m d h mi text hp]
    simp only [finishParse]
    rw [if_neg (by simp only [Bool.or_eq_true, decide_eq_true_eq, not_or]; omega)]
    rw [if_neg (by simpa [List.isEmpty_iff] using htext)]
    rw [if_pos hpast]
  · intro input now v hok
    cases hplan : parsePlan input now with
    | fail r =>
      rw [parseReminderCommand_fail input now r hplan] at hok
      exact absurd hok (by simp)
    | cont y m d h mi text =>
      rw [parseReminderCommand_cont input now y m d h mi text hplan] at hok
      simp only [finishParse] at hok
      split at hok
      · exact absurd hok (by simp)
      · split at hok
        · exact absurd hok (by simp)
        · split at hok
          · exact absurd hok (by simp)
          · next hnotpast =>
            cases hok
            simpa using hnotpast

/-- Witness for C3: the general `time_in_past` statement applied to the
concrete scenario-B input. -/
theorem claim_C3_time_in_past_witness :
    parseReminderCommand ("напомни сегодня в 21:30 выключить плиту".toList)
        (toUtcFromMoscowDateTime 2026 2 23 22 0) = .fail .time_in_past :=
  claim_C3_time_in_past.1 ("напомни сегодня в 21:30 выключить плиту".toList)
    (toUtcFromMoscowDateTime 2026 2 23 22 0) 2026 2 23 21 30
    ("выключить плиту".toList) (by decide) (by decide) (by decide)

/-- C4 counterexample: at Moscow civil-now 2026-02-23 12:00, the parsed
"today" default is 13:10, not the next whole hour 13:00 asserted by the
claim. -/
theorem claim_C4_counterexample :
    parseReminderCommand ("напомни сегодня проверить почту".toList)
        (toUtcFromMoscowDateTime 2026 2 23 12 0) =
      .ok { text := "проверить почту".toList,
            remindAt := toUtcFromMoscowDateTime 2026 2 23 13 10,
            remindDateLabel := "23.02".toList,
            remindTimeLabel := "13:10".toList } ∧
    toUtcFromMoscowDateTime 2026 2 23 13 10 ≠
      toUtcFromMoscowDateTime 2026 2 23 13 0 := by decide

/-- C4 (amended): for a "today" input with no explicit HH:MM, writing `hr`
for the current Moscow civil hour of `now`: if `hr < 10` the default due
time is 10:00; if `10 ≤ hr < 23` it is `(hr + 1):10` (minute 10, not a
whole hour); if `hr = 23` it is 23:59.  The parser uses exactly this
default, as witnessed through `parseReminderCommand` at an instant in each
regime. -/
theorem claim_C4_today_default :
    (∀ now : Int,
      ((getMoscowNowParts now).hour < 10 → defaultTodayTime now = (10, 0)) ∧
      (10 ≤ (getMoscowNowParts now).hour → (getMoscowNowParts now).hour < 23 →
        defaultTodayTime now = ((getMoscowNowParts now).hour + 1, 10)) ∧
      ((getMoscowNowParts now).hour = 23 → defaultTodayTime now = (23, 59))) ∧
    parseReminderCommand ("напомни сегодня проверить почту".toList)
        (toUtcFromMoscowDateTime 2026 2 23 5 30) =
      .ok { text := "проверить почту".toList,
            remindAt := toUtcFromMoscowDateTime 2026 2 23 10 0,
            remindDateLabel := "23.02".toList,
            remindTimeLabel := "10:00".toList } ∧
    parseReminderCommand ("напомни сегодня проверить почту".toList)
        (toUtcFromMoscowDateTime 2026 2 23 12 0) =
      .ok { text := "проверить почту".toList,
            remindAt := toUtcFromMoscowDateTime 2026 2 23 13 10,
            remindDateLabel := "23.02".toList,
            remindTimeLabel := "13:10".toList } ∧
    parseReminderCommand ("напомни сегодня проверить почту".toList)
        (toUtcFromMoscowDateTime 2026 2 23 23 30) =
      .ok { text := "проверить почту".toList,
            remindAt := toUtcFromMoscowDateTime 2026 2 23 23 59,
            remindDateLabel := "23.02".toList,
            remindTimeLabel := "23:59".toList } := by
  refine ⟨?_, by decide, by decide, by decide⟩
  intro now
  simp only [getMoscowNowParts, defaultTodayTime, MOSCOW_OFFSET_HOURS]
  refine ⟨?_, ?_, ?_⟩
  · intro hlt
    rw [if_pos (by omega)]
  · intro h10 h23
    rw [if_neg (by omega), if_neg (by omega)]
    exact Prod.ext (by omega) rfl
  · intro h23
    rw [if_neg (by omega), if_pos (by omega)]

/-- Witness for C4: the general default-time rule applied at a concrete
mid-day instant. -/
theorem claim_C4_today_default_witness :
    defaultTodayTime (toUtcFromMoscowDateTime 2026 2 23 12 0) = (13, 10) := by
  have h := (claim_C4_today_default.1 (toUtcFromMoscowDateTime 2026 2 23 12 0)).2.1
    (by decide) (by decide)
  rw [h]
  decide

/-- C5: end-to-end scenario A — `"напомни завтра в 09:30 позвонить маме"`
at Moscow civil-now 2026-02-23 12:00 parses successfully, with due instant
civil 2026-02-24 09:30 Moscow and cleaned text `"позвонить маме"`. -/
theorem claim_C5_scenario_a :
    parseReminderCommand ("напомни завтра в 09:30 позвонить маме".toList)
        (toUtcFromMoscowDateTime 2026 2 23 12 0) =
      .ok { text := "позвонить маме".toList,
            remindAt := toUtcFromMoscowDateTime 2026 2 24 9 30,
            remindDateLabel := "24.02".toList,
            remindTimeLabel := "09:30".toList } := by decide

/-! ## Claim C10: chat-scoped lookup misses are pure no-ops -/

/-- C10: each of `markDone`, `cancelTask`, `boxTask`, `activateTask` looks
the task up scoped to the chat; when no task with that id exists for that
chat (in particular when the id belongs to a different chat), the
operation returns the not-found reply and leaves the store unchanged. -/
theorem claim_C10_wrong_chat_noop (chatId taskId : String) (now : Int)
    (tasks : List Task)
    (habs : ∀ t ∈ tasks, ¬(t.id = taskId ∧ t.chatId = chatId)) :
    markDone chatId taskId now tasks = (tasks, replyNotFound) ∧
    cancelTask chatId taskId now tasks = (tasks, replyNotFound) ∧
    boxTask chatId taskId tasks = (tasks, replyNotFound) ∧
    activateTask chatId taskId tasks = (tasks, replyNotFound) := by
  have hfind : findTaskForChat chatId taskId tasks = none := by
    unfold findTaskForChat
    rw [List.find?_eq_none]
    intro t ht
    simpa using habs t ht
  refine ⟨?_, ?_, ?_, ?_⟩
  · unfold markDone
    rw [hfind]
  · unfold cancelTask
    rw [hfind]
  · unfold boxTask
    rw [hfind]
  · unfold activateTask
    rw [hfind]

/-- Witness for C10: a store holding one task of chat "A", addressed from
chat "B" with the task's own id. -/
theorem claim_C10_wrong_chat_noop_witness :
    markDone "B" "t1" 0
      [{ id := "t1", chatId := "A", text := [], important := false, emoji := "📝",
         status := .active, dueAt := some 0, remindEveryMinutes := none,
         nextReminderAt := none, completedAt := none, canceledAt := none }] =
      ([{ id := "t1", chatId := "A", text := [], important := false, emoji := "📝",
          status := .active, dueAt := some 0, remindEveryMinutes := none,
          nextReminderAt := none, completedAt := none, canceledAt := none }],
       replyNotFound) :=
  (claim_C10_wrong_chat_noop "B" "t1" 0 _ (by decide)).1

/-! ## Claim C8: the next-reminder invariant -/


/-- `updateTaskRow` with an id-preserving rewrite preserves the id column. -/
theorem updateTaskRow_id_map (tasks : List Task) (id : String) (f : Task → Task)
    (hf : ∀ t, (f t).id = t.id) :
    (updateTaskRow tasks id f).map (fun t => t.id) = tasks.map (fun t => t.id) := by
  induction tasks with
  | nil => rfl
  | cons t ts ih =>
    simp only [updateTaskRow, List.map_cons] at ih ⊢
    by_cases h : t.id = id
    · rw [if_pos h, hf, ih]
    · rw [if_neg h, ih]

/-- Rows of an updated store come from the original store. -/
theorem mem_updateTaskRow (tasks : List Task) (id : String) (f : Task → Task)
    (u : Task) (hu : u ∈ updateTaskRow tasks id f) :
    ∃ t ∈ tasks, u = if t.id = id then f t else t := by
  unfold updateTaskRow at hu
  obtain ⟨t, ht, hut⟩ := List.mem_map.mp hu
  exact ⟨t, ht, hut.symm⟩

/-- In a store with a nodup id column, two rows with the same id coincide. -/
theorem eq_of_same_id (tasks : List Task)
    (hnd : (tasks.map (fun t => t.id)).Nodup)
    (a b : Task) (ha : a ∈ tasks) (hb : b ∈ tasks) (hid : a.id = b.id) :
    a = b :=
  List.inj_on_of_nodup_map hnd ha hb hid


/-- A single-row update preserves `storeInv` when the rewrite keeps the id
and yields an invariant row on the targeted id. -/
theorem storeInv_update_of (s : List Task) (id : String) (f : Task → Task)
    (hfid : ∀ t, (f t).id = t.id) (hinv : storeInv s)
    (hrow : ∀ t ∈ s, t.id = id → taskNraInv (f t)) :
    storeInv (updateTaskRow s id f) := by
  constructor
  · rw [updateTaskRow_id_map s id f hfid]
    exact hinv.1
  · intro u hu
    obtain ⟨t, ht, rfl⟩ := mem_updateTaskRow s id f u hu
    by_cases h : t.id = id
    · rw [if_pos h]
      exact hrow t ht h
    · rw [if_neg h]
      exact hinv.2 t ht

/-- `createTaskFromText` preserves `storeInv` when the new id is fresh. -/
theorem storeInv_create (s : List Task) (chatId : String) (spec : ParsedTaskSpec)
    (newId : String) (hinv : storeInv s) (hfresh : ∀ u ∈ s, u.id ≠ newId) :
    storeInv (createTaskFromText chatId spec newId s).1 := by
  unfold createTaskFromText
  split
  · exact hinv
  · constructor
    · simp only [List.map_append, List.map_cons, List.map_nil]
      rw [List.nodup_append]
      refine ⟨hinv.1, List.nodup_singleton _, ?_⟩
      intro a ha hb
      simp only [List.mem_singleton] at hb
      obtain ⟨u, hu, hua⟩ := List.mem_map.mp ha
      exact hfresh u hu (hua.trans hb)
    · intro t ht
      rcases List.mem_append.mp ht with h | h
      · exact hinv.2 t h
      · simp only [List.mem_singleton] at h
        subst h
        intro hnra
        by_cases hc : spec.dueAt.isSome ∧ spec.remindEveryMinutes.isSome
        · simp only [hc, if_pos] at hnra ⊢
          refine ⟨?_, ?_⟩
          · simp only [if_pos hc.1]
          · simpa using hnra
        · simp only [if_neg hc] at hnra
          exact absurd rfl hnra

/-- `markDone` preserves `storeInv`. -/
theorem storeInv_markDone (s : List Task) (chatId taskId : String) (now : Int)
    (hinv : storeInv s) : storeInv (markDone chatId taskId now s).1 := by
  unfold markDone
  cases hfind : findTaskForChat chatId taskId s with
  | none => exact hinv
  | some task =>
    dsimp only
    by_cases h1 : task.status = .completed
    · rw [if_pos h1]; exact hinv
    · rw [if_neg h1]
      by_cases h2 : task.status = .canceled
      · rw [if_pos h2]; exact hinv
      · rw [if_neg h2]
        refine storeInv_update_of s task.id _ (fun t => rfl) hinv ?_
        intro t ht hid hnra
        exact absurd rfl hnra

/-- `cancelTask` preserves `storeInv`. -/
theorem storeInv_cancelTask (s : List Task) (chatId taskId : String) (now : Int)
    (hinv : storeInv s) : storeInv (cancelTask chatId taskId now s).1 := by
  unfold cancelTask
  cases hfind : findTaskForChat chatId taskId s with
  | none => exact hinv
  | some task =>
    dsimp only
    by_cases h1 : task.status = .canceled
    · rw [if_pos h1]; exact hinv
    · rw [if_neg h1]
      by_cases h2 : task.status = .completed
      · rw [if_pos h2]; exact hinv
      · rw [if_neg h2]
        refine storeInv_update_of s task.id _ (fun t => rfl) hinv ?_
        intro t ht hid hnra
        exact absurd rfl hnra

/-- `boxTask` preserves `storeInv`. -/
theorem storeInv_boxTask (s : List Task) (chatId taskId : String)
    (hinv : storeInv s) : storeInv (boxTask chatId taskId s).1 := by
  unfold boxTask
  cases hfind : findTaskForChat chatId taskId s with
  | none => exact hinv
  | some task =>
    dsimp only
    by_cases h1 : task.status = .boxed
    · rw [if_pos h1]; exact hinv
    · rw [if_neg h1]
      by_cases h2 : task.status = .completed
      · rw [if_pos h2]; exact hinv
      · rw [if_neg h2]
        by_cases h3 : task.status = .canceled
        · rw [if_pos h3]; exact hinv
        · rw [if_neg h3]
          refine storeInv_update_of s task.id _ (fun t => rfl) hinv ?_
          intro t ht hid hnra
          exact absurd rfl hnra

/-- `activateTask` preserves `storeInv`. -/
theorem storeInv_activateTask (s : List Task) (chatId taskId : String)
    (hinv : storeInv s) : storeInv (activateTask chatId taskId s).1 := by
  unfold activateTask
  cases hfind : findTaskForChat chatId taskId s with
  | none => exact hinv
  | some task =>
    have hmem : task ∈ s := List.mem_of_find?_eq_some hfind
    dsimp only
    by_cases h1 : task.status = .active
    · rw [if_pos h1]; exact hinv
    · rw [if_neg h1]
      by_cases h2 : task.status = .completed
      · rw [if_pos h2]; exact hinv
      · rw [if_neg h2]
        by_cases h3 : task.status = .canceled
        · rw [if_pos h3]; exact hinv
        · rw [if_neg h3]
          by_cases h4 : task.dueAt.isNone
          · rw [if_pos h4]; exact hinv
          · rw [if_neg h4]
            refine storeInv_update_of s task.id _ (fun t => rfl) hinv ?_
            intro t ht hid hnra
            have ht' : t = task := eq_of_same_id s hinv.1 t task ht hmem hid
            subst ht'
            refine ⟨rfl, ?_⟩
            by_cases hev : t.remindEveryMinutes.isSome
            · simp only [if_pos hev] at hnra
              exact hnra
            · simp only [if_neg hev] at hnra
              exact absurd rfl hnra

/-- `advanceNextReminder` on a fetched row preserves `storeInv`. -/
theorem storeInv_advance (s : List Task) (task : Task)
    (hinv : storeInv s) (hmem : task ∈ s) :
    storeInv (advanceNextReminder task s) := by
  unfold advanceNextReminder
  cases hev : task.remindEveryMinutes with
  | none =>
    refine storeInv_update_of s task.id _ (fun t => rfl) hinv ?_
    intro t ht hid hnra
    exact absurd rfl hnra
  | some every =>
    cases hnx : task.nextReminderAt with
    | none =>
      refine storeInv_update_of s task.id _ (fun t => rfl) hinv ?_
      intro t ht hid hnra
      exact absurd rfl hnra
    | some next =>
      refine storeInv_update_of s task.id _ (fun t => rfl) hinv ?_
      intro t ht hid _
      have ht' : t = task := eq_of_same_id s hinv.1 t task ht hmem hid
      subst ht'
      exact hinv.2 t hmem (by rw [hnx]; exact Option.some_ne_none _)

/-- Every reachable store satisfies the combined invariant. -/
theorem storeInv_of_reachable (s : List Task) (h : ReachableStore s) :
    storeInv s := by
  induction h with
  | empty => exact ⟨List.nodup_nil, fun t ht => absurd ht (List.not_mem_nil t)⟩
  | create s chatId spec newId h hfresh ih => exact storeInv_create s chatId spec newId ih hfresh
  | done s chatId taskId now h ih => exact storeInv_markDone s chatId taskId now ih
  | cancel s chatId taskId now h ih => exact storeInv_cancelTask s chatId taskId now ih
  | box s chatId taskId h ih => exact storeInv_boxTask s chatId taskId ih
  | activate s chatId taskId h ih => exact storeInv_activateTask s chatId taskId ih
  | advance s task h hmem ih => exact storeInv_advance s task ih hmem

/-- C8: in every store state reachable through the task-store operations
(`createTaskFromText`, `markDone`, `cancelTask`, `boxTask`, `activateTask`,
`advanceNextReminder`), every task with a non-null `nextReminderAt` has
status `active` and a non-null `dueAt`; equivalently, every operation
preserves this predicate. -/
theorem claim_C8_next_reminder_invariant (s : List Task)
    (h : ReachableStore s) : ∀ t ∈ s, taskNraInv t :=
  (storeInv_of_reachable s h).2

/-- Witness for C8: the store obtained by creating one recurring task. -/
theorem claim_C8_next_reminder_invariant_witness :
    Task.status
      { id := "t1", chatId := "c", text := ['a'], important := false, emoji := "📝",
        status := .active, dueAt := some 100, remindEveryMinutes := some 5,
        nextReminderAt := some 100, completedAt := none, canceledAt := none } = .active ∧
    Task.dueAt
      { id := "t1", chatId := "c", text := ['a'], important := false, emoji := "📝",
        status := .active, dueAt := some 100, remindEveryMinutes := some 5,
        nextReminderAt := some 100, completedAt := none, canceledAt := none } ≠ none :=
  claim_C8_next_reminder_invariant
    (createTaskFromText "c"
      { text := ['a'], important := false, dueAt := some 100,
        remindEveryMinutes := some 5, askReminderClarification := false } "t1" []).1
    (ReachableStore.create [] "c" _ "t1" ReachableStore.empty
      (fun u hu => absurd hu (List.not_mem_nil u)))
    _ (by decide) (by decide)

/-! ## Claim C2: sends happen only after successful claims -/

/-- In the ledger-based tick loop, every send is preceded in program order
by its own successful claim. -/
theorem cronTickGo_sendsClaimed (fails : String → Int → Bool) (batch : List Task)
    (st : CronStore) (seen : List (String × Int)) :
    sendsClaimed seen (cronTickGo fails batch st).trace = true := by
  induction batch generalizing st seen with
  | nil => rfl
  | cons task rest ih =>
    cases hnra : task.nextReminderAt with
    | none => simpa [cronTickGo, hnra] using ih st seen
    | some sched =>
      by_cases hmem : (task.id, sched) ∈ st.sent
      · simp [cronTickGo, hnra, tryCreateSentReminder, hmem, sendsClaimed, ih]
      · by_cases hf : fails task.id sched
        · simp [cronTickGo, hnra, tryCreateSentReminder, hmem, hf, sendsClaimed]
        · simp [cronTickGo, hnra, tryCreateSentReminder, hmem, hf, sendsClaimed, ih]

/-- In the optimistic-update tick loop of `server.ts`, every send is
preceded in program order by its own one-row claim, and rolled-back claims
are never followed by a send. -/
theorem srvTickGo_sendsClaimed (fails : Nat → Bool) (now : Int)
    (batch rs : List Reminder) (outbox : List (String × List Char))
    (seen : List Nat) :
    srvSendsClaimed seen (srvTickGo fails now batch rs outbox).2.2.2 = true := by
  induction batch generalizing rs outbox seen with
  | nil => rfl
  | cons reminder rest ih =>
    simp only [srvTickGo]
    split
    · simp [srvSendsClaimed, ih]
    · split
      · simp [srvSendsClaimed, List.erase_cons_head, ih]
      · simp [srvSendsClaimed, ih]

/-- C2 (amended): in `runCronTick` of `app/cron.ts` the outbound send for
an occurrence is invoked only after the ledger insert for `(taskId,
scheduledAt)` succeeded, and in `runCronTick` of `server.ts` only after
the one-row optimistic status update succeeded; the `part_023` cron tick
handler, by contrast, sends first and marks the row afterwards (see the
counterexample). -/
theorem claim_C2_claim_before_send :
    (∀ (fails : String → Int → Bool) (now : Int) (st : CronStore),
      sendsClaimed [] (runCronTick fails now st).trace = true) ∧
    (∀ (fails : Nat → Bool) (now : Int) (st : SrvState),
      srvSendsClaimed [] (serverRunCronTick fails now st).2.2.2 = true) := by
  constructor
  · intro fails now st
    unfold runCronTick
    exact cronTickGo_sendsClaimed fails _ _ []
  · intro fails now st
    unfold serverRunCronTick
    exact srvTickGo_sendsClaimed fails now _ _ _ []

/-- C2 counterexample: on a store with one due scheduled reminder, the
`part_023` cron tick handler's trace has the send before the one-row
status update, so the claim-before-send property fails there. -/
theorem claim_C2_counterexample :
    srvSendsClaimed []
      (part023CronTick 0
        { processed := [], nextId := 1, outbox := [],
          reminders := [{ id := 0, chatId := "c", text := ['x'], remindAt := 0,
                          status := .scheduled, sentAt := none }] }).2.2.2 = false ∧
    (part023CronTick 0
        { processed := [], nextId := 1, outbox := [],
          reminders := [{ id := 0, chatId := "c", text := ['x'], remindAt := 0,
                          status := .scheduled, sentAt := none }] }).2.2.2 =
      [SrvEvent.send "c" 0, SrvEvent.claim 0 true] := by decide

/-! ## Claim C9: transport failure after a successful claim -/

/-- The ledger only grows during a ledger-based tick, even when a throwing
send aborts it. -/
theorem cronTickGo_sent_monotone (fails : String → Int → Bool) (batch : List Task)
    (st : CronStore) (p : String × Int) (hp : p ∈ st.sent) :
    p ∈ (cronTickGo fails batch st).store.sent := by
  induction batch generalizing st with
  | nil => exact hp
  | cons task rest ih =>
    cases hnra : task.nextReminderAt with
    | none => simpa [cronTickGo, hnra] using ih st hp
    | some sched =>
      by_cases hmem : (task.id, sched) ∈ st.sent
      · simpa [cronTickGo, hnra, tryCreateSentReminder, hmem] using ih st hp
      · by_cases hf : fails task.id sched
        · simp only [cronTickGo, hnra, tryCreateSentReminder, if_neg hmem, if_pos rfl,
            hf, if_pos]
          exact List.mem_append_left _ hp
        · simp only [cronTickGo, hnra, tryCreateSentReminder, if_neg hmem, hf]
          simp only [if_pos rfl, Bool.false_eq_true, if_false]
          exact ih _ (List.mem_append_left _ hp)

/-- An occurrence already recorded in the ledger is never sent by any
(later) ledger-based tick. -/
theorem cronTickGo_no_resend (fails : String → Int → Bool) (batch : List Task)
    (st : CronStore) (tid : String) (sched : Int)
    (hp : (tid, sched) ∈ st.sent) (ch : String) :
    CronEvent.send ch tid sched ∉ (cronTickGo fails batch st).trace := by
  induction batch generalizing st with
  | nil => simp [cronTickGo]
  | cons task rest ih =>
    cases hnra : task.nextReminderAt with
    | none =>
      simpa [cronTickGo, hnra] using ih st hp
    | some sched' =>
      by_cases hmem : (task.id, sched') ∈ st.sent
      · simp only [cronTickGo, hnra, tryCreateSentReminder, if_pos hmem]
        simp only [Bool.false_eq_true, if_false, List.mem_cons]
        rintro (h | h)
        · cases h
        · exact ih st hp h
      · have hne : ¬(task.id = tid ∧ sched' = sched) := by
          rintro ⟨rfl, rfl⟩
          exact hmem hp
        by_cases hf : fails task.id sched'
        · simp only [cronTickGo, hnra, tryCreateSentReminder, if_neg hmem, if_pos rfl, hf,
            if_pos]
          simp
        · simp only [cronTickGo, hnra, tryCreateSentReminder, if_neg hmem, hf]
          simp only [if_pos rfl, Bool.false_eq_true, if_false]
          intro hmem2
          rcases List.mem_cons.mp hmem2 with h | hmem3
          · cases h
          rcases List.mem_cons.mp hmem3 with h | hmem4
          · cases h
            exact hne ⟨rfl, rfl⟩
          rcases List.mem_cons.mp hmem4 with h | hmem5
          · cases h
          exact ih _ (List.mem_append_left _ hp) hmem5

/-- C9 (amended): in the ledger-based `runCronTick` (`app/cron.ts`) a send
failure after a successful claim leaves the ledger row in place — the
ledger only grows, and an occurrence present in the ledger is never sent
by any later tick; however, the failure aborts the tick and propagates to
the HTTP handler (`errored`), instead of being logged in-loop with chat
and task id (that in-loop logging plus an explicit claim rollback is what
the optimistic `server.ts` variant does — see the counterexample).
Concretely, with one due task and a failing transport the tick ends with
the claim persisted, no send, no `nextReminderAt` advance and the error
propagated, and the next tick skips the occurrence silently. -/
theorem claim_C9_claim_persists :
    (∀ (fails : String → Int → Bool) (now : Int) (st : CronStore)
        (p : String × Int), p ∈ st.sent →
        p ∈ (runCronTick fails now st).store.sent) ∧
    (∀ (fails : String → Int → Bool) (now : Int) (st : CronStore)
        (tid : String) (sched : Int) (ch : String), (tid, sched) ∈ st.sent →
        CronEvent.send ch tid sched ∉ (runCronTick fails now st).trace) ∧
    ((runCronTick (fun _ _ => true) 0
        ⟨[{ id := "t", chatId := "c", text := ['x'], important := false, emoji := "📝",
            status := .active, dueAt := some 0, remindEveryMinutes := some 60,
            nextReminderAt := some 0, completedAt := none, canceledAt := none }], []⟩).errored
        = true ∧
     (runCronTick (fun _ _ => true) 0
        ⟨[{ id := "t", chatId := "c", text := ['x'], important := false, emoji := "📝",
            status := .active, dueAt := some 0, remindEveryMinutes := some 60,
            nextReminderAt := some 0, completedAt := none, canceledAt := none }], []⟩).store
        = ⟨[{ id := "t", chatId := "c", text := ['x'], important := false, emoji := "📝",
              status := .active, dueAt := some 0, remindEveryMinutes := some 60,
              nextReminderAt := some 0, completedAt := none, canceledAt := none }],
           [("t", 0)]⟩ ∧
     (runCronTick (fun _ _ => true) 0
        ⟨[{ id := "t", chatId := "c", text := ['x'], important := false, emoji := "📝",
            status := .active, dueAt := some 0, remindEveryMinutes := some 60,
            nextReminderAt := some 0, completedAt := none, canceledAt := none }], []⟩).trace
        = [CronEvent.claim "t" 0 true] ∧
     (runCronTick (fun _ _ => false) 0
        ⟨[{ id := "t", chatId := "c", text := ['x'], important := false, emoji := "📝",
            status := .active, dueAt := some 0, remindEveryMinutes := some 60,
            nextReminderAt := some 0, completedAt := none, canceledAt := none }],
         [("t", 0)]⟩).trace
        = [CronEvent.claim "t" 0 false]) := by
  refine ⟨?_, ?_, by decide⟩
  · intro fails now st p hp
    unfold runCronTick
    dsimp only
    exact cronTickGo_sent_monotone fails _ _ p hp
  · intro fails now st tid sched ch hp
    unfold runCronTick
    dsimp only
    exact cronTickGo_no_resend fails
      (fetchDueReminderBatch now 100 (cleanupCompletedOverflow 15 st.tasks))
      ⟨cleanupCompletedOverflow 15 st.tasks, st.sent⟩ tid sched hp ch

/-- Witness for C9: ledger monotonicity and no-resend applied to the
concrete one-task store whose occurrence is already claimed. -/
theorem claim_C9_claim_persists_witness :
    ("t", (0 : Int)) ∈ (runCronTick (fun _ _ => false) 0
      ⟨[{ id := "t", chatId := "c", text := ['x'], important := false, emoji := "📝",
          status := .active, dueAt := some 0, remindEveryMinutes := some 60,
          nextReminderAt := some 0, completedAt := none, canceledAt := none }],
        [("t", 0)]⟩).store.sent ∧
    CronEvent.send "c" "t" 0 ∉ (runCronTick (fun _ _ => false) 0
      ⟨[{ id := "t", chatId := "c", text := ['x'], important := false, emoji := "📝",
          status := .active, dueAt := some 0, remindEveryMinutes := some 60,
          nextReminderAt := some 0, completedAt := none, canceledAt := none }],
        [("t", 0)]⟩).trace :=
  ⟨claim_C9_claim_persists.1 (fun _ _ => false) 0 _ ("t", 0) (by decide),
   claim_C9_claim_persists.2.1 (fun _ _ => false) 0 _ "t" 0 "c" (by decide)⟩

/-- C9 counterexample: the cited `runCronTick` of `server.ts` (the
optimistic variant) does roll the claim back on a send failure — the
reminder returns to `scheduled` with `sentAt` cleared, and a later tick
re-sends it — contradicting the claim as stated. -/
theorem claim_C9_counterexample :
    (serverRunCronTick (fun _ => true) 0
      { processed := [], nextId := 1, outbox := [],
        reminders := [{ id := 0, chatId := "c", text := ['x'], remindAt := 0,
                        status := .scheduled, sentAt := none }] }).1.reminders =
      [{ id := 0, chatId := "c", text := ['x'], remindAt := 0,
         status := .scheduled, sentAt := none }] ∧
    (serverRunCronTick (fun _ => true) 0
      { processed := [], nextId := 1, outbox := [],
        reminders := [{ id := 0, chatId := "c", text := ['x'], remindAt := 0,
                        status := .scheduled, sentAt := none }] }).2.2.2 =
      [SrvEvent.claim 0 true, SrvEvent.rollback 0] ∧
    (serverRunCronTick (fun _ => false) 0
      (serverRunCronTick (fun _ => true) 0
        { processed := [], nextId := 1, outbox := [],
          reminders := [{ id := 0, chatId := "c", text := ['x'], remindAt := 0,
                          status := .scheduled, sentAt := none }] }).1).1.outbox =
      [("c", ("🔔 Напоминание: ".toList) ++ ['x'])] := by decide

/-! ## Claim C6: webhook idempotence -/

/-- Processing an update whose id is already in the ledger is a pure
no-op. -/
theorem processTelegramUpdate_dup (owner secret : String) (now : Int)
    (u : TelegramUpdate) (st : SrvState) (uid : Int)
    (hupd : u.update_id = some uid) (hdup : uid ∈ st.processed) :
    processTelegramUpdate owner secret now u st = st := by
  unfold processTelegramUpdate
  rw [hupd]
  dsimp only
  cases hex : extractUserInput u with
  | none => rfl
  | some extracted =>
    simp [markUpdateProcessed, hdup]

/-- Processing a fresh, non-command, successfully parsing text update
creates exactly one reminder and sends exactly one confirmation. -/
theorem processTelegramUpdate_fresh (owner secret : String) (now : Int)
    (u : TelegramUpdate) (st : SrvState) (uid : Int)
    (ex : ExtractedUserInput) (text : List Char) (v : ParseOkValue)
    (hupd : u.update_id = some uid) (hex : extractUserInput u = some ex)
    (htext : ex.userText = some text) (hnew : uid ∉ st.processed)
    (hc1 : normalizeCommandText text ≠ "/help".toList)
    (hc2 : normalizeCommandText text ≠ "/tick".toList)
    (hc3 : normalizeCommandText text ≠ "коробка".toList)
    (hc4 : normalizeCommandText text ≠ "/box".toList)
    (hc5 : normalizeCommandText text ≠ "все задачи".toList)
    (hc6 : normalizeCommandText text ≠ "/all".toList)
    (hc7 : normalizeCommandText text ≠ "что сегодня".toList)
    (hc8 : normalizeCommandText text ≠ "/today".toList)
    (hok : parseReminderCommand text now = .ok v) :
    processTelegramUpdate owner secret now u st =
      { processed := uid :: st.processed,
        reminders := st.reminders ++
          [{ id := st.nextId, chatId := ex.chatId, text := v.text,
             remindAt := v.remindAt, status := .scheduled, sentAt := none }],
        outbox := st.outbox ++
          [(ex.chatId,
            if secret = "" then
              buildConfirmationReply v.remindDateLabel v.remindTimeLabel v.text ++
                '\n' :: "Напоминания заработают после включения cron (см. /help).".toList
            else buildConfirmationReply v.remindDateLabel v.remindTimeLabel v.text)],
        nextId := st.nextId + 1 } := by
  unfold processTelegramUpdate
  rw [hupd]
  try dsimp only
  rw [hex]
  try dsimp only
  simp only [markUpdateProcessed, if_neg hnew]
  try dsimp only
  rw [htext]
  try dsimp only
  rw [if_neg hc1, if_neg hc2, if_neg (not_or.mpr ⟨hc3, hc4⟩),
    if_neg (not_or.mpr ⟨hc5, hc6⟩), if_neg (not_or.mpr ⟨hc7, hc8⟩), hok]
  simp

/-- C6: duplicate webhook updates are silent no-ops acknowledged with
success — the ledger insert for the update id reports the collision as
`false` instead of raising, a fresh successfully parsed update creates
exactly one reminder row and one confirmation send, and reprocessing the
same update id leaves the state exactly as after the first processing
(while the route has already acknowledged HTTP 200 either way). -/
theorem claim_C6_webhook_idempotent :
    (∀ (owner secret : String) (now : Int) (u : TelegramUpdate) (st : SrvState)
        (uid : Int), u.update_id = some uid → uid ∈ st.processed →
        processTelegramUpdate owner secret now u st = st) ∧
    (∀ (uid : Int) (processed : List Int),
        (markUpdateProcessed uid processed).1 = false ↔ uid ∈ processed) ∧
    (∀ u : TelegramUpdate, telegramWebhookStatus u = 200) ∧
    (∀ (owner secret : String) (now : Int) (u : TelegramUpdate) (st : SrvState)
        (uid : Int) (ex : ExtractedUserInput) (text : List Char) (v : ParseOkValue),
        u.update_id = some uid → extractUserInput u = some ex →
        ex.userText = some text → uid ∉ st.processed →
        normalizeCommandText text ≠ "/help".toList →
        normalizeCommandText text ≠ "/tick".toList →
        normalizeCommandText text ≠ "коробка".toList →
        normalizeCommandText text ≠ "/box".toList →
        normalizeCommandText text ≠ "все задачи".toList →
        normalizeCommandText text ≠ "/all".toList →
        normalizeCommandText text ≠ "что сегодня".toList →
        normalizeCommandText text ≠ "/today".toList →
        parseReminderCommand text now = .ok v →
        (processTelegramUpdate owner secret now u st).reminders =
          st.reminders ++
            [{ id := st.nextId, chatId := ex.chatId, text := v.text,
               remindAt := v.remindAt, status := .scheduled, sentAt := none }] ∧
        (processTelegramUpdate owner secret now u st).outbox.length =
          st.outbox.length + 1 ∧
        (processTelegramUpdate owner secret now u st).processed =
          uid :: st.processed ∧
        processTelegramUpdate owner secret now u
            (processTelegramUpdate owner secret now u st) =
          processTelegramUpdate owner secret now u st) := by
  refine ⟨processTelegramUpdate_dup, ?_, fun _ => rfl, ?_⟩
  · intro uid processed
    unfold markUpdateProcessed
    by_cases h : uid ∈ processed
    · simp [h]
    · simp [h]
  · intro owner secret now u st uid ex text v hupd hex htext hnew
      hc1 hc2 hc3 hc4 hc5 hc6 hc7 hc8 hok
    have hfresh := processTelegramUpdate_fresh owner secret now u st uid ex text v
      hupd hex htext hnew hc1 hc2 hc3 hc4 hc5 hc6 hc7 hc8 hok
    refine ⟨by rw [hfresh], by rw [hfresh]; simp, by rw [hfresh], ?_⟩
    have hdup : uid ∈ (processTelegramUpdate owner secret now u st).processed := by
      rw [hfresh]
      exact List.mem_cons_self uid st.processed
    exact processTelegramUpdate_dup owner secret now u _ uid hupd hdup

/-- Witness for C6: a concrete fresh update creating one reminder, then
replayed as a duplicate. -/
theorem claim_C6_webhook_idempotent_witness :
    (processTelegramUpdate "" "s" (toUtcFromMoscowDateTime 2026 2 23 12 0)
      { update_id := some 7,
        message := some
          { message_id := some 1,
            text := some ("напомни завтра в 09:30 позвонить маме".toList),
            caption := none, voice := none, audio := none, document := none,
            chat := some { id := some "42" } } }
      { processed := [], reminders := [], outbox := [], nextId := 0 }).reminders =
      [{ id := 0, chatId := "42", text := "позвонить маме".toList,
         remindAt := toUtcFromMoscowDateTime 2026 2 24 9 30,
         status := .scheduled, sentAt := none }] :=
  ((claim_C6_webhook_idempotent.2.2.2 "" "s" (toUtcFromMoscowDateTime 2026 2 23 12 0)
      { update_id := some 7,
        message := some
          { message_id := some 1,
            text := some ("напомни завтра в 09:30 позвонить маме".toList),
            caption := none, voice := none, audio := none, document := none,
            chat := some { id := some "42" } } }
      { processed := [], reminders := [], outbox := [], nextId := 0 }
      7 { chatId := "42",
          userText := some ("напомни завтра в 09:30 позвонить маме".toList),
          messageId := some 1, kind := "text" }
      ("напомни завтра в 09:30 позвонить маме".toList)
      { text := "позвонить маме".toList,
        remindAt := toUtcFromMoscowDateTime 2026 2 24 9 30,
        remindDateLabel := "24.02".toList, remindTimeLabel := "09:30".toList }
      (by decide) (by decide) (by decide) (by decide) (by decide) (by decide)
      (by decide) (by decide) (by decide) (by decide) (by decide) (by decide)
      (by decide)).1)

/-! ## Claim C1: exactly-once delivery under concurrent ticks -/

/-- Count of a process counter after a replace step, untouched case. -/
theorem count_replace_ne (x newpc oldpc : TickPC) (m : Multiset TickPC)
    (h1 : x ≠ newpc) (h2 : x ≠ oldpc) :
    (newpc ::ₘ m.erase oldpc).count x = m.count x := by
  rw [Multiset.count_cons, Multiset.count_erase_of_ne h2, if_neg h1]
  omega

/-- Count after a replace step, when the new counter is counted. -/
theorem count_replace_new (newpc oldpc : TickPC) (m : Multiset TickPC)
    (h2 : newpc ≠ oldpc) :
    (newpc ::ₘ m.erase oldpc).count newpc = m.count newpc + 1 := by
  rw [Multiset.count_cons, Multiset.count_erase_of_ne h2, if_pos rfl]

/-- Count after a replace step, when the old counter is counted. -/
theorem count_replace_old (x newpc : TickPC) (m : Multiset TickPC)
    (h1 : x ≠ newpc) :
    (newpc ::ₘ m.erase x).count x = m.count x - 1 := by
  rw [Multiset.count_cons, Multiset.count_erase_self, if_neg h1]
  omega

/-- The machine invariant is preserved by every step. -/
theorem tickStep_inv (r now every : Int) (hdue : r ≤ now)
    (hfut : now < r + every * 60000) (s s' : ConcState)
    (hstep : TickStep now every s s') (hinv : tickInv r every s) :
    tickInv r every s' := by
  obtain ⟨hcl, hsd, hadv, hphase⟩ := hinv
  cases hstep with
  | fetch_due v h hv hdue' =>
    have hvr : v = r := by
      rcases hphase with ⟨_, _, _, hn, _⟩ | ⟨_, _, _, hn, _, _⟩ | ⟨_, _, _, hn, _, _⟩ |
        ⟨_, _, _, hn, _, _⟩
      · rw [hn] at hv; cases hv; rfl
      · rw [hn] at hv; cases hv; rfl
      · rw [hn] at hv; cases hv; rfl
      · exfalso; rw [hn] at hv; injection hv with h'; omega
    subst v
    refine ⟨?_, ?_, ?_, ?_⟩
    · intro v' hv'
      rcases Multiset.mem_cons.mp hv' with h' | h'
      · cases h'; rfl
      · exact hcl v' (Multiset.mem_of_mem_erase h')
    · intro v' hv'
      rcases Multiset.mem_cons.mp hv' with h' | h'
      · cases h'
      · exact hsd v' (Multiset.mem_of_mem_erase h')
    · intro v' hv'
      rcases Multiset.mem_cons.mp hv' with h' | h'
      · cases h'
      · exact hadv v' (Multiset.mem_of_mem_erase h')
    · rcases hphase with ⟨hl, hs, ha, hn, hall⟩ | ⟨hl, hs, ha, hn, hc1, hc2⟩ |
        ⟨hl, hs, ha, hn, hc1, hc2⟩ | ⟨hl, hs, ha, hn, hc1, hc2⟩
      · refine Or.inl ⟨hl, hs, ha, hn, ?_⟩
        intro pc hpc
        rcases Multiset.mem_cons.mp hpc with h' | h'
        · exact Or.inr h'
        · exact hall pc (Multiset.mem_of_mem_erase h')
      · refine Or.inr (Or.inl ⟨hl, hs, ha, hn, ?_, ?_⟩)
        · rw [count_replace_ne _ _ _ _ (by simp) (by simp)]
          exact hc1
        · rw [count_replace_ne _ _ _ _ (by simp) (by simp)]
          exact hc2
      · refine Or.inr (Or.inr (Or.inl ⟨hl, hs, ha, hn, ?_, ?_⟩))
        · rw [count_replace_ne _ _ _ _ (by simp) (by simp)]
          exact hc1
        · rw [count_replace_ne _ _ _ _ (by simp) (by simp)]
          exact hc2
      · exfalso
        rw [hn] at hv
        injection hv with h'
        omega
  | fetch_empty h hnone =>
    have h4 : s.ledger = [r] ∧ s.sends = [r] ∧ s.advances = [r] ∧
        s.nra = some (r + every * 60000) ∧
        s.procs.count (TickPC.send r) = 0 ∧ s.procs.count (TickPC.advance r) = 0 := by
      rcases hphase with ⟨hl, hs, ha, hn, hall⟩ | ⟨hl, hs, ha, hn, hc1, hc2⟩ |
        ⟨hl, hs, ha, hn, hc1, hc2⟩ | h4
      · exact absurd hdue (hnone r hn)
      · exact absurd hdue (hnone r hn)
      · exact absurd hdue (hnone r hn)
      · exact h4
    refine ⟨?_, ?_, ?_, ?_⟩
    · intro v' hv'
      rcases Multiset.mem_cons.mp hv' with h' | h'
      · cases h'
      · exact hcl v' (Multiset.mem_of_mem_erase h')
    · intro v' hv'
      rcases Multiset.mem_cons.mp hv' with h' | h'
      · cases h'
      · exact hsd v' (Multiset.mem_of_mem_erase h')
    · intro v' hv'
      rcases Multiset.mem_cons.mp hv' with h' | h'
      · cases h'
      · exact hadv v' (Multiset.mem_of_mem_erase h')
    · refine Or.inr (Or.inr (Or.inr ⟨h4.1, h4.2.1, h4.2.2.1, h4.2.2.2.1, ?_, ?_⟩))
      · rw [count_replace_ne _ _ _ _ (by simp) (by simp)]
        exact h4.2.2.2.2.1
      · rw [count_replace_ne _ _ _ _ (by simp) (by simp)]
        exact h4.2.2.2.2.2
  | claim_win v h hnew =>
    have hvr : v = r := hcl v h
    subst v
    have hphase1 : s.ledger = [] ∧ s.sends = [] ∧ s.advances = [] ∧ s.nra = some r ∧
        (∀ pc ∈ s.procs, pc = TickPC.fetch ∨ pc = TickPC.claim r) := by
      rcases hphase with h1 | ⟨hl, _⟩ | ⟨hl, _⟩ | ⟨hl, _⟩
      · exact h1
      · exact absurd (hl ▸ List.mem_singleton.mpr rfl) hnew
      · exact absurd (hl ▸ List.mem_singleton.mpr rfl) hnew
      · exact absurd (hl ▸ List.mem_singleton.mpr rfl) hnew
    obtain ⟨hl, hs, ha, hn, hall⟩ := hphase1
    refine ⟨?_, ?_, ?_, ?_⟩
    · intro v' hv'
      rcases Multiset.mem_cons.mp hv' with h' | h'
      · cases h'
      · exact hcl v' (Multiset.mem_of_mem_erase h')
    · intro v' hv'
      rcases Multiset.mem_cons.mp hv' with h' | h'
      · cases h'; rfl
      · exact hsd v' (Multiset.mem_of_mem_erase h')
    · intro v' hv'
      rcases Multiset.mem_cons.mp hv' with h' | h'
      · cases h'
      · exact hadv v' (Multiset.mem_of_mem_erase h')
    · refine Or.inr (Or.inl ⟨by rw [hl]; rfl, hs, ha, hn, ?_, ?_⟩)
      · have hzero : s.procs.count (TickPC.send r) = 0 := by
          rw [Multiset.count_eq_zero]
          intro hmem
          rcases hall _ hmem with h' | h' <;> cases h'
        rw [count_replace_new _ _ _ (by simp), hzero]
      · have hzero : s.procs.count (TickPC.advance r) = 0 := by
          rw [Multiset.count_eq_zero]
          intro hmem
          rcases hall _ hmem with h' | h' <;> cases h'
        rw [count_replace_ne _ _ _ _ (by simp) (by simp), hzero]
  | claim_dup v h hdup =>
    have hvr : v = r := hcl v h
    subst v
    refine ⟨?_, ?_, ?_, ?_⟩
    · intro v' hv'
      rcases Multiset.mem_cons.mp hv' with h' | h'
      · cases h'
      · exact hcl v' (Multiset.mem_of_mem_erase h')
    · intro v' hv'
      rcases Multiset.mem_cons.mp hv' with h' | h'
      · cases h'
      · exact hsd v' (Multiset.mem_of_mem_erase h')
    · intro v' hv'
      rcases Multiset.mem_cons.mp hv' with h' | h'
      · cases h'
      · exact hadv v' (Multiset.mem_of_mem_erase h')
    · rcases hphase with ⟨hl, _⟩ | ⟨hl, hs, ha, hn, hc1, hc2⟩ |
        ⟨hl, hs, ha, hn, hc1, hc2⟩ | ⟨hl, hs, ha, hn, hc1, hc2⟩
      · exact absurd hdup (by rw [hl]; exact List.not_mem_nil r)
      · refine Or.inr (Or.inl ⟨hl, hs, ha, hn, ?_, ?_⟩)
        · rw [count_replace_ne _ _ _ _ (by simp) (by simp)]; exact hc1
        · rw [count_replace_ne _ _ _ _ (by simp) (by simp)]; exact hc2
      · refine Or.inr (Or.inr (Or.inl ⟨hl, hs, ha, hn, ?_, ?_⟩))
        · rw [count_replace_ne _ _ _ _ (by simp) (by simp)]; exact hc1
        · rw [count_replace_ne _ _ _ _ (by simp) (by simp)]; exact hc2
      · refine Or.inr (Or.inr (Or.inr ⟨hl, hs, ha, hn, ?_, ?_⟩))
        · rw [count_replace_ne _ _ _ _ (by simp) (by simp)]; exact hc1
        · rw [count_replace_ne _ _ _ _ (by simp) (by simp)]; exact hc2
  | send v h =>
    have hvr : v = r := hsd v h
    subst v
    have hphase2 : s.ledger = [r] ∧ s.sends = [] ∧ s.advances = [] ∧ s.nra = some r ∧
        s.procs.count (TickPC.send r) = 1 ∧ s.procs.count (TickPC.advance r) = 0 := by
      rcases hphase with ⟨hl, hs, ha, hn, hall⟩ | h2 | ⟨hl, hs, ha, hn, hc1, hc2⟩ |
        ⟨hl, hs, ha, hn, hc1, hc2⟩
      · exfalso
        rcases hall _ h with h' | h' <;> cases h'
      · exact h2
      · exfalso
        have := Multiset.count_pos.mpr h
        omega
      · exfalso
        have := Multiset.count_pos.mpr h
        omega
    obtain ⟨hl, hs, ha, hn, hc1, hc2⟩ := hphase2
    refine ⟨?_, ?_, ?_, ?_⟩
    · intro v' hv'
      rcases Multiset.mem_cons.mp hv' with h' | h'
      · cases h'
      · exact hcl v' (Multiset.mem_of_mem_erase h')
    · intro v' hv'
      rcases Multiset.mem_cons.mp hv' with h' | h'
      · cases h'
      · exact hsd v' (Multiset.mem_of_mem_erase h')
    · intro v' hv'
      rcases Multiset.mem_cons.mp hv' with h' | h'
      · cases h'; rfl
      · exact hadv v' (Multiset.mem_of_mem_erase h')
    · refine Or.inr (Or.inr (Or.inl ⟨hl, by rw [hs]; rfl, ha, hn, ?_, ?_⟩))
      · rw [count_replace_old _ _ _ (by simp), hc1]
      · rw [count_replace_new _ _ _ (by simp), hc2]
  | advance v h =>
    have hvr : v = r := hadv v h
    subst v
    have hphase3 : s.ledger = [r] ∧ s.sends = [r] ∧ s.advances = [] ∧ s.nra = some r ∧
        s.procs.count (TickPC.send r) = 0 ∧ s.procs.count (TickPC.advance r) = 1 := by
      rcases hphase with ⟨hl, hs, ha, hn, hall⟩ | ⟨hl, hs, ha, hn, hc1, hc2⟩ | h3 |
        ⟨hl, hs, ha, hn, hc1, hc2⟩
      · exfalso
        rcases hall _ h with h' | h' <;> cases h'
      · exfalso
        have := Multiset.count_pos.mpr h
        omega
      · exact h3
      · exfalso
        have := Multiset.count_pos.mpr h
        omega
    obtain ⟨hl, hs, ha, hn, hc1, hc2⟩ := hphase3
    refine ⟨?_, ?_, ?_, ?_⟩
    · intro v' hv'
      rcases Multiset.mem_cons.mp hv' with h' | h'
      · cases h'
      · exact hcl v' (Multiset.mem_of_mem_erase h')
    · intro v' hv'
      rcases Multiset.mem_cons.mp hv' with h' | h'
      · cases h'
      · exact hsd v' (Multiset.mem_of_mem_erase h')
    · intro v' hv'
      rcases Multiset.mem_cons.mp hv' with h' | h'
      · cases h'
      · exact hadv v' (Multiset.mem_of_mem_erase h')
    · refine Or.inr (Or.inr (Or.inr ⟨hl, hs, by rw [ha]; rfl, rfl, ?_, ?_⟩))
      · rw [count_replace_ne _ _ _ _ (by simp) (by simp), hc1]
      · rw [count_replace_old _ _ _ (by simp), hc2]

/-- Every step preserves the number of tick processes. -/
theorem tickStep_card (now every : Int) (s s' : ConcState)
    (hstep : TickStep now every s s') : s'.procs.card = s.procs.card := by
  cases hstep with
  | fetch_due v h hv hdue' =>
    have hpos : 0 < s.procs.card := Multiset.card_pos_iff_exists_mem.mpr ⟨_, h⟩
    simp only [Multiset.card_cons, Multiset.card_erase_of_mem h, Nat.pred_eq_sub_one]
    omega
  | fetch_empty h hnone =>
    have hpos : 0 < s.procs.card := Multiset.card_pos_iff_exists_mem.mpr ⟨_, h⟩
    simp only [Multiset.card_cons, Multiset.card_erase_of_mem h, Nat.pred_eq_sub_one]
    omega
  | claim_win v h hnew =>
    have hpos : 0 < s.procs.card := Multiset.card_pos_iff_exists_mem.mpr ⟨_, h⟩
    simp only [Multiset.card_cons, Multiset.card_erase_of_mem h, Nat.pred_eq_sub_one]
    omega
  | claim_dup v h hdup =>
    have hpos : 0 < s.procs.card := Multiset.card_pos_iff_exists_mem.mpr ⟨_, h⟩
    simp only [Multiset.card_cons, Multiset.card_erase_of_mem h, Nat.pred_eq_sub_one]
    omega
  | send v h =>
    have hpos : 0 < s.procs.card := Multiset.card_pos_iff_exists_mem.mpr ⟨_, h⟩
    simp only [Multiset.card_cons, Multiset.card_erase_of_mem h, Nat.pred_eq_sub_one]
    omega
  | advance v h =>
    have hpos : 0 < s.procs.card := Multiset.card_pos_iff_exists_mem.mpr ⟨_, h⟩
    simp only [Multiset.card_cons, Multiset.card_erase_of_mem h, Nat.pred_eq_sub_one]
    omega

/-- C1: for every `n ≥ 1`, when `n` invocations of the ledger-based cron
tick run concurrently (arbitrary interleaving of their atomic store
operations) over a store containing one due task (`active`, recurring,
`nextReminderAt = r ≤ now`, next occurrence in the future), every
completed run has exactly one transport send for the occurrence `(task,
r)`, exactly one `nextReminderAt` advance (to `r + every` minutes), and
exactly one ledger row. -/
theorem claim_C1_exactly_once (n : Nat) (hn : 1 ≤ n) (r now every : Int)
    (hdue : r ≤ now) (hfut : now < r + every * 60000) (s : ConcState)
    (hreach : Relation.ReflTransGen (TickStep now every) (initTickState n r) s)
    (hdone : allDone s) :
    s.sends = [r] ∧ s.advances = [r] ∧ s.ledger = [r] ∧
      s.nra = some (r + every * 60000) := by
  have hinit : tickInv r every (initTickState n r) := by
    refine ⟨?_, ?_, ?_, Or.inl ⟨rfl, rfl, rfl, rfl, ?_⟩⟩
    · intro v hv
      cases Multiset.eq_of_mem_replicate hv
    · intro v hv
      cases Multiset.eq_of_mem_replicate hv
    · intro v hv
      cases Multiset.eq_of_mem_replicate hv
    · intro pc hpc
      exact Or.inl (Multiset.eq_of_mem_replicate hpc)
  have hinv : tickInv r every s := by
    clear hdone
    induction hreach with
    | refl => exact hinit
    | tail hsteps hstep ih => exact tickStep_inv r now every hdue hfut _ _ hstep ih
  have hcard : s.procs.card = n := by
    clear hdone hinv
    induction hreach with
    | refl => exact Multiset.card_replicate _ _
    | tail hsteps hstep ih => exact (tickStep_card now every _ _ hstep).trans ih
  obtain ⟨pc0, hpc0⟩ : ∃ pc, pc ∈ s.procs :=
    Multiset.card_pos_iff_exists_mem.mp (by omega)
  rcases hinv.2.2.2 with ⟨hl, hs, ha, hn', hall⟩ | ⟨hl, hs, ha, hn', hc1, hc2⟩ |
    ⟨hl, hs, ha, hn', hc1, hc2⟩ | ⟨hl, hs, ha, hn', hc1, hc2⟩
  · exfalso
    have := hdone pc0 hpc0
    rcases hall pc0 hpc0 with h' | h' <;> rw [this] at h' <;> cases h'
  · exfalso
    have hmem : TickPC.send r ∈ s.procs := Multiset.count_pos.mp (by omega)
    have := hdone _ hmem
    cases this
  · exfalso
    have hmem : TickPC.advance r ∈ s.procs := Multiset.count_pos.mp (by omega)
    have := hdone _ hmem
    cases this
  · exact ⟨hs, ha, hl, hn'⟩

/-- Witness for C1: a complete one-invocation run over the due task ends
with exactly one send and one advance. -/
theorem claim_C1_exactly_once_witness :
    (⟨some 60000, [0], [0], [0], {TickPC.done}⟩ : ConcState).sends = [0] ∧
    (⟨some 60000, [0], [0], [0], {TickPC.done}⟩ : ConcState).advances = [0] := by
  have h1 : TickStep 0 1 (initTickState 1 0)
      ⟨some 0, [], [], [], {TickPC.claim 0}⟩ :=
    TickStep.fetch_due _ 0 (by decide) rfl (by decide)
  have h2 : TickStep 0 1 (⟨some 0, [], [], [], {TickPC.claim 0}⟩ : ConcState)
      ⟨some 0, [0], [], [], {TickPC.send 0}⟩ :=
    TickStep.claim_win _ 0 (by decide) (by decide)
  have h3 : TickStep 0 1 (⟨some 0, [0], [], [], {TickPC.send 0}⟩ : ConcState)
      ⟨some 0, [0], [0], [], {TickPC.advance 0}⟩ :=
    TickStep.send _ 0 (by decide)
  have h4 : TickStep 0 1 (⟨some 0, [0], [0], [], {TickPC.advance 0}⟩ : ConcState)
      ⟨some 60000, [0], [0], [0], {TickPC.done}⟩ :=
    TickStep.advance _ 0 (by decide)
  have hreach : Relation.ReflTransGen (TickStep 0 1) (initTickState 1 0)
      (⟨some 60000, [0], [0], [0], {TickPC.done}⟩ : ConcState) :=
    Relation.ReflTransGen.tail (Relation.ReflTransGen.tail
      (Relation.ReflTransGen.tail (Relation.ReflTransGen.tail
        Relation.ReflTransGen.refl h1) h2) h3) h4
  have hres := claim_C1_exactly_once 1 (by decide) 0 0 1 (by decide) (by decide)
    _ hreach (fun pc hpc => Multiset.mem_singleton.mp hpc)
  exact ⟨hres.1, hres.2.1⟩

end VTB
